import Mathlib

/-!
Verification of the Zen language interpreter (lexer, Pratt parser, AST and
tree-walking evaluator) against its natural-language specification.

The development is a shallow embedding of the Python sources:
  - token model        (zen_token/zen_token.py)
  - lexer              (lexer/regex_lexer.py, wrapped by lexer/lexer.py)
  - AST and printing   (zen_ast/ast.py)
  - parser             (parser/parser.py)
  - object model       (object/object.py, object/environment.py)
  - evaluator          (evaluator/evaluator.py)

Python heap objects (Environment frames) are modelled by an explicit heap,
a list of frames addressed by natural-number references; mutation is
explicit state passing.  Recursion that is unbounded in Python (the
evaluator, the Pratt parser) is modelled with a fuel parameter; a result of
`none` means the fuel ran out, `some` carries the value the Python code
returns.  Machine integers are `Int` (Python integers are unbounded).
File input/output is abstracted: module loading receives a finite map
from import path to source text standing for the resolved filesystem.
Builtin native functions are not modelled; every program considered here
uses none, and the builtin-seeding loops of the sources are therefore
dropped (environments start empty).
-/

set_option maxRecDepth 100000
set_option maxHeartbeats 3200000

namespace Zen

/-! ## Token model (zen_token/zen_token.py) -/

/-- Token kinds, mirroring the string constants of class `TokenType`. -/
inductive TokenType where
  | EOF | ILLEGAL
  | IDENT | INT | STRING
  | BAG | LOAD | FX | CLX | RETURN | IF | ELSE | FOR
  | TRUE | FALSE | NIL | SELF
  | ASSIGN | PLUS | MINUS | MULTIPLY | DIVIDE
  | EQ | NEQ | LT | GT | LTE | GTE
  | AND | OR | NOT
  | LPAREN | RPAREN | LBRACE | RBRACE | COMMA | DOT
  deriving DecidableEq, Repr

/-- The string value of each `TokenType` constant (used verbatim in parser
error messages, e.g. "No prefix parse function for FX"). -/
def tokenTypeName : TokenType → String
  | .EOF => "EOF" | .ILLEGAL => "ILLEGAL"
  | .IDENT => "IDENT" | .INT => "INT" | .STRING => "STRING"
  | .BAG => "BAG" | .LOAD => "LOAD" | .FX => "FX" | .CLX => "CLX"
  | .RETURN => "RETURN" | .IF => "IF" | .ELSE => "ELSE" | .FOR => "FOR"
  | .TRUE => "TRUE" | .FALSE => "FALSE" | .NIL => "NIL" | .SELF => "SELF"
  | .ASSIGN => "ASSIGN" | .PLUS => "PLUS" | .MINUS => "MINUS"
  | .MULTIPLY => "MULTIPLY" | .DIVIDE => "DIVIDE"
  | .EQ => "EQ" | .NEQ => "NEQ" | .LT => "LT" | .GT => "GT"
  | .LTE => "LTE" | .GTE => "GTE"
  | .AND => "AND" | .OR => "OR" | .NOT => "NOT"
  | .LPAREN => "LPAREN" | .RPAREN => "RPAREN"
  | .LBRACE => "LBRACE" | .RBRACE => "RBRACE"
  | .COMMA => "COMMA" | .DOT => "DOT"

/-- A token literal: Python stores an `int` for INT tokens, a `str` for all
other emitted tokens, and `None` for the EOF token. -/
inductive Literal where
  | num (n : Int)
  | text (s : String)
  | noneLit
  deriving DecidableEq, Repr

/-- A token.  The `line`/`column` fields of the Python dataclass are not
tracked: no property considered here mentions source positions. -/
structure Token where
  type : TokenType
  literal : Literal
  deriving DecidableEq, Repr

/-- The `KEYWORDS` table and `lookup_ident` from zen_token.py. -/
def lookup_ident (ident : String) : TokenType :=
  if ident = "bag" then .BAG
  else if ident = "load" then .LOAD
  else if ident = "fx" then .FX
  else if ident = "clx" then .CLX
  else if ident = "return" then .RETURN
  else if ident = "if" then .IF
  else if ident = "else" then .ELSE
  else if ident = "for" then .FOR
  else if ident = "true" then .TRUE
  else if ident = "false" then .FALSE
  else if ident = "nil" then .NIL
  else if ident = "self" then .SELF
  else .IDENT

/-! ## Lexer (lexer/regex_lexer.py)

The lexer matches, at each input position, one master regex whose ordered
alternatives are the `TOKEN_RULES`; the first alternative that matches
wins.  Each alternative below is implemented as a deterministic scanner on
`List Char`; the order of the attempts reproduces the rule order. -/

/-- The escape table of `RegexLexer._process_string`. -/
def escapeChar : Char → Option Char
  | 'n' => some '\n'
  | 't' => some '\t'
  | 'r' => some '\r'
  | '\\' => some '\\'
  | '"' => some '"'
  | _ => none

/-- The decoding loop of `RegexLexer._process_string`, acting on the string
content (quotes already removed).  A backslash followed by a recognized
escape character is replaced by the escaped character; on an unrecognized
escape the backslash itself is appended and scanning continues at the next
character; a trailing lone backslash is kept. -/
def decodeEscapes : List Char → List Char
  | [] => []
  | '\\' :: c :: rest =>
    match escapeChar c with
    | some d => d :: decodeEscapes rest
    | none => '\\' :: decodeEscapes (c :: rest)
  | c :: rest => c :: decodeEscapes rest

/-- Function `RegexLexer._process_string`: strip the surrounding quotes of the
matched text, then decode escapes. -/
def process_string (text : List Char) : List Char :=
  decodeEscapes ((text.drop 1).dropLast)

/-- Scan the body of a string literal (regex `"(?:[^"\\]|\\.)*"`), given the
input after the opening quote.  Returns the content characters and the rest
of the input after the closing quote, or `none` when the regex alternative
fails to match (unterminated string, or a backslash directly before a
newline or at the end of input). -/
def scanString : List Char → Option (List Char × List Char)
  | [] => none
  | '"' :: rest => some ([], rest)
  | '\\' :: c :: rest =>
    if c = '\n' then none
    else (scanString rest).map fun p => ('\\' :: c :: p.1, p.2)
  | '\\' :: [] => none
  | c :: rest => (scanString rest).map fun p => (c :: p.1, p.2)

/-- Scan past the first `*/` (regex `/\*[\s\S]*?\*/`, non-greedy), given the
input after the opening `/*`.  `none` when the comment is unterminated, in
which case the alternative fails and the single-character `/` rule applies. -/
def scanBlockComment : List Char → Option (List Char)
  | [] => none
  | '*' :: '/' :: rest => some rest
  | _ :: rest => scanBlockComment rest

/-- Digits of an INT token (`\d+`), maximal run. -/
def takeDigits (cs : List Char) : List Char × List Char :=
  (cs.takeWhile Char.isDigit, cs.dropWhile Char.isDigit)

/-- Python `int(text)` for a (nonempty) run of decimal digits. -/
def digitsToInt (ds : List Char) : Int :=
  Int.ofNat (ds.foldl (fun acc c => acc * 10 + (c.toNat - '0'.toNat)) 0)

/-- First character of an identifier: `[a-zA-Z_]`. -/
def isIdentStart (c : Char) : Bool := c.isAlpha || c = '_'

/-- Subsequent identifier characters: `[a-zA-Z0-9_]`. -/
def isIdentChar (c : Char) : Bool := c.isAlpha || c.isDigit || c = '_'

/-- Whitespace of the `[ \t\r]+` rule. -/
def isBlank (c : Char) : Bool := c = ' ' || c = '\t' || c = '\r'

/-- One step of `RegexLexer._next_token_with_keyword_check` at a nonempty
position: the emitted token (or `none` for skipped comments, newlines and
whitespace) together with the remaining input.  An overall `none` models a
`LexerError` (no alternative matched). -/
def lexOne (cs : List Char) : Option (Option Token × List Char) :=
  match cs with
  | [] => none
  | c :: rest =>
    if c = '/' then
      match rest with
      | '/' :: rest2 => some (none, rest2.dropWhile (fun d => d ≠ '\n'))
      | '*' :: rest2 =>
        match scanBlockComment rest2 with
        | some rest3 => some (none, rest3)
        | none => some (some ⟨.DIVIDE, .text "/"⟩, rest)
      | _ => some (some ⟨.DIVIDE, .text "/"⟩, rest)
    else if c = '\n' then some (none, rest)
    else if isBlank c then some (none, (c :: rest).dropWhile isBlank)
    else if c = '"' then
      match scanString rest with
      | some (content, rest2) =>
        some (some ⟨.STRING, .text (String.mk (process_string ('"' :: content ++ ['"'])))⟩, rest2)
      | none => none
    else if c.isDigit then
      let (ds, rest2) := takeDigits (c :: rest)
      some (some ⟨.INT, .num (digitsToInt ds)⟩, rest2)
    else if c = '=' then
      match rest with
      | '=' :: rest2 => some (some ⟨.EQ, .text "=="⟩, rest2)
      | _ => some (some ⟨.ASSIGN, .text "="⟩, rest)
    else if c = '!' then
      match rest with
      | '=' :: rest2 => some (some ⟨.NEQ, .text "!="⟩, rest2)
      | _ => some (some ⟨.NOT, .text "!"⟩, rest)
    else if c = '<' then
      match rest with
      | '=' :: rest2 => some (some ⟨.LTE, .text "<="⟩, rest2)
      | _ => some (some ⟨.LT, .text "<"⟩, rest)
    else if c = '>' then
      match rest with
      | '=' :: rest2 => some (some ⟨.GTE, .text ">="⟩, rest2)
      | _ => some (some ⟨.GT, .text ">"⟩, rest)
    else if c = '&' then
      match rest with
      | '&' :: rest2 => some (some ⟨.AND, .text "&&"⟩, rest2)
      | _ => none
    else if c = '|' then
      match rest with
      | '|' :: rest2 => some (some ⟨.OR, .text "||"⟩, rest2)
      | _ => none
    else if c = '+' then some (some ⟨.PLUS, .text "+"⟩, rest)
    else if c = '-' then some (some ⟨.MINUS, .text "-"⟩, rest)
    else if c = '*' then some (some ⟨.MULTIPLY, .text "*"⟩, rest)
    else if c = '(' then some (some ⟨.LPAREN, .text "("⟩, rest)
    else if c = ')' then some (some ⟨.RPAREN, .text ")"⟩, rest)
    else if c = '\x7b' then some (some ⟨.LBRACE, .text (String.mk ['\x7b'])⟩, rest)
    else if c = '\x7d' then some (some ⟨.RBRACE, .text (String.mk ['\x7d'])⟩, rest)
    else if c = ',' then some (some ⟨.COMMA, .text ","⟩, rest)
    else if c = '.' then some (some ⟨.DOT, .text "."⟩, rest)
    else if isIdentStart c then
      let ident := (c :: rest).takeWhile isIdentChar
      let rest2 := (c :: rest).dropWhile isIdentChar
      let s := String.mk ident
      some (some ⟨lookup_ident s, .text s⟩, rest2)
    else none

/-- The tokenizing loop of `RegexLexer.tokenize`: repeat `lexOne` until the
input is exhausted, then append the EOF token.  The fuel is ample for any
input of length below it, as every `lexOne` step consumes at least one
character. -/
def lexTokens : Nat → List Char → Option (List Token)
  | 0, _ => none
  | _ + 1, [] => some [⟨.EOF, .noneLit⟩]
  | fuel + 1, cs =>
    match lexOne cs with
    | none => none
    | some (tok?, rest) =>
      (lexTokens fuel rest).map fun ts =>
        match tok? with
        | some t => t :: ts
        | none => ts

/-- Entry point `tokenize`.  `none` models a raised `LexerError`. -/
def tokenize (source : String) : Option (List Token) :=
  lexTokens (source.length + 1) source.data

/-! ## AST (zen_ast/ast.py)

Children that the parser can leave absent (Python `None`) are `Option`:
the parser stores `None` into `InfixExpression.left`/`right`,
`CallExpression.function` and `MemberAccessExpression.object` when a
sub-parse fails, and `ReturnStatement.value` is optional by design. -/

inductive Expr where
  | Identifier (value : String)
  | IntegerLiteral (value : Int)
  | StringLiteral (value : String)
  | BooleanLiteral (value : Bool)
  | NilLiteral
  | SelfExpression
  | PrefixExpression (operator : String) (right : Expr)
  | InfixExpression (left : Option Expr) (operator : String) (right : Option Expr)
  | CallExpression (function : Option Expr) (arguments : List Expr)
  | MemberAccessExpression (object : Option Expr) (member : String)
  deriving Repr, BEq

/-- Statements.  A `FunctionStatement` body and a `BlockStatement` carry the
block statement list directly; `ClassStatement.methods` is the list of
parsed method declarations (the parser only ever stores
`FunctionStatement`s there). -/
inductive Stmt where
  | PackageStatement (name : String)
  | LoadStatement (imports : List String)
  | FunctionStatement (name : String) (parameters : List String) (body : List Stmt)
  | ClassStatement (name : String) (methods : List Stmt)
  | ReturnStatement (value : Option Expr)
  | ExpressionStatement (expression : Expr)
  | AssignStatement (target : Expr) (value : Expr)
  | BlockStatement (statements : List Stmt)
  deriving Repr, BEq

mutual

/-- Method `string()` of the expression nodes.  Note that
`MemberAccessExpression.string` produces `object.member` with no
parentheses, while prefix and infix nodes parenthesize. -/
def exprString : Expr → String
  | .Identifier v => v
  | .IntegerLiteral n => toString n
  | .StringLiteral s => "\"" ++ s ++ "\""
  | .BooleanLiteral b => if b then "true" else "false"
  | .NilLiteral => "nil"
  | .SelfExpression => "self"
  | .PrefixExpression op r => "(" ++ op ++ exprString r ++ ")"
  | .InfixExpression l op r =>
    "(" ++ exprStringO l ++ " " ++ op ++ " " ++ exprStringO r ++ ")"
  | .CallExpression f args =>
    exprStringO f ++ "(" ++ String.intercalate ", " (exprStringList args) ++ ")"
  | .MemberAccessExpression obj m => exprStringO obj ++ "." ++ m

/-- Printing an absent child: Python would raise `AttributeError` here
(`None.string()`); the placeholder below is never reached for the
error-free parses considered in the theorems. -/
def exprStringO : Option Expr → String
  | some e => exprString e
  | none => "None"

def exprStringList : List Expr → List String
  | [] => []
  | e :: rest => exprString e :: exprStringList rest

end

mutual

/-- Method `string()` of the statement nodes (the brace-and-newline form of
`BlockStatement.string` is written out at each occurrence). -/
def stmtString : Stmt → String
  | .PackageStatement n => "bag " ++ n
  | .LoadStatement imports =>
    "load(" ++ String.intercalate ", " (imports.map (fun i => "\"" ++ i ++ "\"")) ++ ")"
  | .FunctionStatement n ps body =>
    "fx " ++ n ++ "(" ++ String.intercalate ", " ps ++ ") "
      ++ "\x7b\n" ++ String.intercalate "\n" (stmtStringList body) ++ "\n\x7d"
  | .ClassStatement n methods =>
    "clx " ++ n ++ " \x7b\n" ++ String.intercalate "\n" (stmtStringList methods) ++ "\n\x7d"
  | .ReturnStatement v =>
    match v with
    | some e => "return " ++ exprString e
    | none => "return"
  | .ExpressionStatement e => exprString e
  | .AssignStatement t v => exprString t ++ " = " ++ exprString v
  | .BlockStatement ss =>
    "\x7b\n" ++ String.intercalate "\n" (stmtStringList ss) ++ "\n\x7d"

def stmtStringList : List Stmt → List String
  | [] => []
  | s :: rest => stmtString s :: stmtStringList rest

end

/-- Method `Program.string()`. -/
def programString (statements : List Stmt) : String :=
  String.intercalate "\n" (stmtStringList statements)

/-! ## Parser (parser/parser.py)

The `Parser` object state: the token list, the current position and the
accumulated error messages.  The Pratt parser and the statement parsers are
mutually recursive through function calls with no a-priori bound, so they
take a fuel parameter; `none` means the fuel ran out (which also models the
genuine non-termination of `parse_program` on inputs such as a bare
`return` at end of file). -/

structure ParserState where
  tokens : List Token
  pos : Nat
  errors : List String
  deriving Repr

/-- The `Precedence` enumeration (`IntEnum` values). -/
def precLOWEST : Nat := 1
def precASSIGN : Nat := 2
def precOR : Nat := 3
def precAND : Nat := 4
def precEQUALS : Nat := 5
def precLESSGREATER : Nat := 6
def precSUM : Nat := 7
def precPRODUCT : Nat := 8
def precPREFIXOP : Nat := 9
def precCALL : Nat := 10
def precINDEX : Nat := 11

/-- The `PRECEDENCES` table; token kinds not in the table get `LOWEST`
(methods `_current_precedence`/`_peek_precedence`). -/
def tokenPrecedence : TokenType → Nat
  | .ASSIGN => precASSIGN
  | .OR => precOR
  | .AND => precAND
  | .EQ => precEQUALS
  | .NEQ => precEQUALS
  | .LT => precLESSGREATER
  | .GT => precLESSGREATER
  | .LTE => precLESSGREATER
  | .GTE => precLESSGREATER
  | .PLUS => precSUM
  | .MINUS => precSUM
  | .MULTIPLY => precPRODUCT
  | .DIVIDE => precPRODUCT
  | .LPAREN => precCALL
  | .DOT => precINDEX
  | _ => precLOWEST

/-- Method `_current_token`. -/
def currentToken (ps : ParserState) : Option Token := ps.tokens[ps.pos]?

/-- Method `_peek_token`. -/
def peekTokenP (ps : ParserState) : Option Token := ps.tokens[ps.pos + 1]?

/-- Method `_advance`. -/
def advanceP (ps : ParserState) : ParserState :=
  if ps.pos < ps.tokens.length then { ps with pos := ps.pos + 1 } else ps

/-- Method `_current_token_is`. -/
def current_token_is (ps : ParserState) (t : TokenType) : Bool :=
  match currentToken ps with
  | some tok => tok.type = t
  | none => false

/-- Method `_peek_token_is`. -/
def peek_token_is (ps : ParserState) (t : TokenType) : Bool :=
  match peekTokenP ps with
  | some tok => tok.type = t
  | none => false

def addError (ps : ParserState) (msg : String) : ParserState :=
  { ps with errors := ps.errors ++ [msg] }

/-- Method `_peek_error`. -/
def peekError (ps : ParserState) (t : TokenType) : ParserState :=
  match peekTokenP ps with
  | some p =>
    addError ps ("Expected next token to be " ++ tokenTypeName t ++ ", got "
      ++ tokenTypeName p.type ++ " instead")
  | none =>
    addError ps ("Expected next token to be " ++ tokenTypeName t
      ++ ", but reached EOF")

/-- Method `_expect_peek`. -/
def expect_peek (ps : ParserState) (t : TokenType) : Bool × ParserState :=
  if peek_token_is ps t then (true, advanceP ps) else (false, peekError ps t)

/-- Method `_current_precedence`. -/
def current_precedence (ps : ParserState) : Nat :=
  match currentToken ps with
  | some tok => tokenPrecedence tok.type
  | none => precLOWEST

/-- Method `_peek_precedence`. -/
def peek_precedence (ps : ParserState) : Nat :=
  match peekTokenP ps with
  | some tok => tokenPrecedence tok.type
  | none => precLOWEST

/-- Text payload of a token literal.  At every use site the token kind
guarantees a `text` literal. -/
def litText : Literal → String
  | .text s => s
  | .num n => toString n
  | .noneLit => ""

/-- Integer payload of a token literal; INT tokens always carry one. -/
def litInt : Literal → Int
  | .num n => n
  | _ => 0

/-- Text literal of the current token (only used where the Python code has
already established that a current token exists). -/
def currentLitText (ps : ParserState) : String :=
  match currentToken ps with
  | some tok => litText tok.literal
  | none => ""

/-- Method `_parse_package_statement`. -/
def parse_package_statement (ps : ParserState) : Option Stmt × ParserState :=
  let (ok, ps1) := expect_peek ps .IDENT
  if ok then (some (.PackageStatement (currentLitText ps1)), ps1)
  else (none, ps1)

/-- The import-list loop of `_parse_load_statement`. -/
def parseLoadLoop : Nat → List String → ParserState → Option (Option Stmt × ParserState)
  | 0, _, _ => none
  | fuel + 1, imports, ps =>
    if current_token_is ps .STRING then
      let imports1 := imports ++ [currentLitText ps]
      if peek_token_is ps .COMMA then
        parseLoadLoop fuel imports1 (advanceP (advanceP ps))
      else if peek_token_is ps .RPAREN then
        some (some (.LoadStatement imports1), advanceP ps)
      else
        some (some (.LoadStatement imports1),
          addError ps "Expected , or ) after import path")
    else
      some (some (.LoadStatement imports),
        addError ps "Expected string literal in load statement")

/-- Method `_parse_load_statement`. -/
def parse_load_statement (fuel : Nat) (ps : ParserState) :
    Option (Option Stmt × ParserState) :=
  let (ok, ps1) := expect_peek ps .LPAREN
  if !ok then some (none, ps1)
  else
    let ps2 := advanceP ps1
    if current_token_is ps2 .RPAREN then some (some (.LoadStatement []), ps2)
    else parseLoadLoop fuel [] ps2

/-- The parameter loop of `_parse_function_parameters`. -/
def parseParamsLoop : Nat → List String → ParserState → List String × ParserState
  | 0, params, ps => (params, ps)
  | fuel + 1, params, ps =>
    if current_token_is ps .IDENT then
      let params1 := params ++ [currentLitText ps]
      if peek_token_is ps .COMMA then
        parseParamsLoop fuel params1 (advanceP (advanceP ps))
      else if peek_token_is ps .RPAREN then (params1, advanceP ps)
      else (params1, addError ps "Expected , or ) after parameter")
    else (params, addError ps "Expected parameter name")

/-- Method `_parse_function_parameters`. -/
def parse_function_parameters (fuel : Nat) (ps : ParserState) :
    List String × ParserState :=
  let ps1 := advanceP ps
  if current_token_is ps1 .RPAREN then ([], ps1)
  else parseParamsLoop fuel [] ps1

/-- Method `_parse_member_access_expression`; the current token is the DOT. -/
def parse_member_access_expression (obj : Option Expr) (ps : ParserState) :
    Option Expr × ParserState :=
  let ps1 := advanceP ps
  if current_token_is ps1 .IDENT then
    (some (.MemberAccessExpression obj (currentLitText ps1)), ps1)
  else (none, addError ps1 "Expected identifier after .")

mutual

/-- Method `_parse_expression` (Pratt parsing): dispatch on the registered
prefix parse functions, then run the infix loop. -/
def parse_expression : Nat → Nat → ParserState → Option (Option Expr × ParserState)
  | 0, _, _ => none
  | fuel + 1, prec, ps =>
    match currentToken ps with
    | none => some (none, addError ps "No prefix parse function for EOF")
    | some token =>
      match token.type with
      | .IDENT => parseInfixLoop fuel prec (some (.Identifier (litText token.literal))) ps
      | .INT => parseInfixLoop fuel prec (some (.IntegerLiteral (litInt token.literal))) ps
      | .STRING => parseInfixLoop fuel prec (some (.StringLiteral (litText token.literal))) ps
      | .TRUE => parseInfixLoop fuel prec (some (.BooleanLiteral true)) ps
      | .FALSE => parseInfixLoop fuel prec (some (.BooleanLiteral false)) ps
      | .NIL => parseInfixLoop fuel prec (some .NilLiteral) ps
      | .SELF => parseInfixLoop fuel prec (some .SelfExpression) ps
      | .MINUS =>
        match parse_prefix_expression fuel ps with
        | none => none
        | some (left, ps1) => parseInfixLoop fuel prec left ps1
      | .NOT =>
        match parse_prefix_expression fuel ps with
        | none => none
        | some (left, ps1) => parseInfixLoop fuel prec left ps1
      | .LPAREN =>
        match parse_grouped_expression fuel ps with
        | none => none
        | some (left, ps1) => parseInfixLoop fuel prec left ps1
      | t =>
        some (none, addError ps ("No prefix parse function for " ++ tokenTypeName t))

/-- The `while` loop of `_parse_expression`: as long as the peek token is
not EOF and binds strictly tighter than `prec`, advance onto the operator
and run its registered infix parse function. -/
def parseInfixLoop : Nat → Nat → Option Expr → ParserState → Option (Option Expr × ParserState)
  | 0, _, _, _ => none
  | fuel + 1, prec, left, ps =>
    if !(peek_token_is ps .EOF) && prec < peek_precedence ps then
      match peekTokenP ps with
      | none => some (left, ps)
      | some peek =>
        match peek.type with
        | .PLUS | .MINUS | .MULTIPLY | .DIVIDE | .EQ | .NEQ
        | .LT | .GT | .LTE | .GTE | .AND | .OR =>
          match parse_infix_expression fuel left (advanceP ps) with
          | none => none
          | some (left1, ps1) => parseInfixLoop fuel prec left1 ps1
        | .LPAREN =>
          match parse_call_expression fuel left (advanceP ps) with
          | none => none
          | some (left1, ps1) => parseInfixLoop fuel prec left1 ps1
        | .DOT =>
          let (left1, ps1) := parse_member_access_expression left (advanceP ps)
          parseInfixLoop fuel prec left1 ps1
        | _ => some (left, ps)
    else some (left, ps)

/-- Method `_parse_prefix_expression`; the current token is MINUS or NOT. -/
def parse_prefix_expression (fuel : Nat) (ps : ParserState) :
    Option (Option Expr × ParserState) :=
  match fuel with
  | 0 => none
  | fuel + 1 =>
    let op := currentLitText ps
    let ps1 := advanceP ps
    match parse_expression fuel precPREFIXOP ps1 with
    | none => none
    | some (none, ps2) => some (none, ps2)
    | some (some right, ps2) => some (some (.PrefixExpression op right), ps2)

/-- Method `_parse_grouped_expression`; the current token is LPAREN. -/
def parse_grouped_expression (fuel : Nat) (ps : ParserState) :
    Option (Option Expr × ParserState) :=
  match fuel with
  | 0 => none
  | fuel + 1 =>
    let ps1 := advanceP ps
    match parse_expression fuel precLOWEST ps1 with
    | none => none
    | some (expr, ps2) =>
      let (ok, ps3) := expect_peek ps2 .RPAREN
      if ok then some (expr, ps3) else some (none, ps3)

/-- Method `_parse_infix_expression`; the current token is the operator.
An `InfixExpression` is produced even when the right sub-parse fails
(its `right` is then absent). -/
def parse_infix_expression (fuel : Nat) (left : Option Expr) (ps : ParserState) :
    Option (Option Expr × ParserState) :=
  match fuel with
  | 0 => none
  | fuel + 1 =>
    let op := currentLitText ps
    let prec := current_precedence ps
    let ps1 := advanceP ps
    match parse_expression fuel prec ps1 with
    | none => none
    | some (right, ps2) => some (some (.InfixExpression left op right), ps2)

/-- Method `_parse_call_expression`; the current token is the LPAREN. -/
def parse_call_expression (fuel : Nat) (function : Option Expr) (ps : ParserState) :
    Option (Option Expr × ParserState) :=
  match fuel with
  | 0 => none
  | fuel + 1 =>
    let ps1 := advanceP ps
    if current_token_is ps1 .RPAREN then
      some (some (.CallExpression function []), ps1)
    else parseCallArgsLoop fuel function [] ps1

/-- The argument loop of `_parse_call_expression`. -/
def parseCallArgsLoop : Nat → Option Expr → List Expr → ParserState →
    Option (Option Expr × ParserState)
  | 0, _, _, _ => none
  | fuel + 1, function, args, ps =>
    match parse_expression fuel precLOWEST ps with
    | none => none
    | some (none, ps1) => some (some (.CallExpression function args), ps1)
    | some (some arg, ps1) =>
      let args1 := args ++ [arg]
      if peek_token_is ps1 .COMMA then
        parseCallArgsLoop fuel function args1 (advanceP (advanceP ps1))
      else if peek_token_is ps1 .RPAREN then
        some (some (.CallExpression function args1), advanceP ps1)
      else
        some (some (.CallExpression function args1),
          addError ps1 "Expected , or ) after argument")

/-- Method `_parse_statement`: dispatch by the leading token kind. -/
def parse_statement (fuel : Nat) (ps : ParserState) :
    Option (Option Stmt × ParserState) :=
  match fuel with
  | 0 => none
  | fuel + 1 =>
    match currentToken ps with
    | none => some (none, ps)
    | some token =>
      match token.type with
      | .BAG => some (parse_package_statement ps)
      | .LOAD => parse_load_statement fuel ps
      | .FX => parse_function_statement fuel ps
      | .CLX => parse_class_statement fuel ps
      | .RETURN => parse_return_statement fuel ps
      | .LBRACE =>
        match parse_block_statement fuel ps with
        | none => none
        | some (ss, ps1) => some (some (.BlockStatement ss), ps1)
      | _ => parse_assignment_or_expression_statement fuel ps

/-- Method `_parse_return_statement`. -/
def parse_return_statement (fuel : Nat) (ps : ParserState) :
    Option (Option Stmt × ParserState) :=
  match fuel with
  | 0 => none
  | fuel + 1 =>
    let ps1 := advanceP ps
    if current_token_is ps1 .RBRACE || current_token_is ps1 .EOF then
      some (some (.ReturnStatement none), ps1)
    else
      match parse_expression fuel precLOWEST ps1 with
      | none => none
      | some (v, ps2) => some (some (.ReturnStatement v), ps2)

/-- Method `_parse_block_statement` (returns the statement list; callers
wrap it where the node itself is needed); the current token is LBRACE. -/
def parse_block_statement (fuel : Nat) (ps : ParserState) :
    Option (List Stmt × ParserState) :=
  match fuel with
  | 0 => none
  | fuel + 1 => parseBlockLoop fuel [] (advanceP ps)

/-- The statement loop of `_parse_block_statement`. -/
def parseBlockLoop : Nat → List Stmt → ParserState → Option (List Stmt × ParserState)
  | 0, _, _ => none
  | fuel + 1, acc, ps =>
    if current_token_is ps .RBRACE || current_token_is ps .EOF then some (acc, ps)
    else
      match parse_statement fuel ps with
      | none => none
      | some (stmt?, ps1) =>
        let acc1 := match stmt? with
          | some s => acc ++ [s]
          | none => acc
        parseBlockLoop fuel acc1 (advanceP ps1)

/-- Method `_parse_function_statement`. -/
def parse_function_statement (fuel : Nat) (ps : ParserState) :
    Option (Option Stmt × ParserState) :=
  match fuel with
  | 0 => none
  | fuel + 1 =>
    let (ok, ps1) := expect_peek ps .IDENT
    if !ok then some (none, ps1)
    else
      let name := currentLitText ps1
      let (ok2, ps2) := expect_peek ps1 .LPAREN
      if !ok2 then some (none, ps2)
      else
        let (params, ps3) := parse_function_parameters fuel ps2
        let (ok3, ps4) := expect_peek ps3 .LBRACE
        if !ok3 then some (none, ps4)
        else
          match parse_block_statement fuel ps4 with
          | none => none
          | some (body, ps5) =>
            some (some (.FunctionStatement name params body), ps5)

/-- Method `_parse_class_statement`. -/
def parse_class_statement (fuel : Nat) (ps : ParserState) :
    Option (Option Stmt × ParserState) :=
  match fuel with
  | 0 => none
  | fuel + 1 =>
    let (ok, ps1) := expect_peek ps .IDENT
    if !ok then some (none, ps1)
    else
      let name := currentLitText ps1
      let (ok2, ps2) := expect_peek ps1 .LBRACE
      if !ok2 then some (none, ps2)
      else parseClassLoop fuel name [] (advanceP ps2)

/-- The method loop of `_parse_class_statement`. -/
def parseClassLoop : Nat → String → List Stmt → ParserState →
    Option (Option Stmt × ParserState)
  | 0, _, _, _ => none
  | fuel + 1, name, methods, ps =>
    if current_token_is ps .RBRACE || current_token_is ps .EOF then
      some (some (.ClassStatement name methods), ps)
    else if current_token_is ps .FX then
      match parse_function_statement fuel ps with
      | none => none
      | some (m?, ps1) =>
        let methods1 := match m? with
          | some m => methods ++ [m]
          | none => methods
        parseClassLoop fuel name methods1 (advanceP ps1)
    else parseClassLoop fuel name methods (advanceP ps)

/-- Method `_parse_assignment_or_expression_statement`. -/
def parse_assignment_or_expression_statement (fuel : Nat) (ps : ParserState) :
    Option (Option Stmt × ParserState) :=
  match fuel with
  | 0 => none
  | fuel + 1 =>
    match parse_expression fuel precLOWEST ps with
    | none => none
    | some (none, ps1) => some (none, ps1)
    | some (some expr, ps1) =>
      if peek_token_is ps1 .ASSIGN then
        match parse_expression fuel precLOWEST (advanceP (advanceP ps1)) with
        | none => none
        | some (none, ps2) => some (none, ps2)
        | some (some value, ps2) =>
          some (some (.AssignStatement expr value), ps2)
      else some (some (.ExpressionStatement expr), ps1)

/-- The statement loop of `parse_program`. -/
def parseProgramLoop : Nat → List Stmt → ParserState → Option (List Stmt × ParserState)
  | 0, _, _ => none
  | fuel + 1, acc, ps =>
    if current_token_is ps .EOF then some (acc, ps)
    else
      match parse_statement fuel ps with
      | none => none
      | some (stmt?, ps1) =>
        let acc1 := match stmt? with
          | some s => acc ++ [s]
          | none => acc
        parseProgramLoop fuel acc1 (advanceP ps1)

end

/-- Method `parse_program`: parse a whole token list, returning the program
statements and the final parser state (which carries the error list). -/
def parse_program (fuel : Nat) (tokens : List Token) :
    Option (List Stmt × ParserState) :=
  parseProgramLoop fuel [] ⟨tokens, 0, []⟩

/-! ## Runtime object model (object/object.py, object/environment.py)

Environment frames live on an explicit heap (a list of frames) and are
addressed by index; `Function` objects, `Instance` field stores and
`Module` namespaces hold frame references, which models Python sharing of
mutable `Environment` objects.  Frame stores are association lists with
the insertion-order / unique-key discipline of a Python dict. -/

/-- The fields of a `Function` object: parameter names, body block
statements, captured environment reference, optional name. -/
structure FnData where
  parameters : List String
  body : List Stmt
  env : Nat
  name : String
  deriving Repr, BEq

/-- Runtime objects.  `Class` data (name and method table) is carried
inline; an `Instance` carries its class data plus the reference of its
field `Environment`; a `Module` carries the references of its public and
full (private) namespace environments.  `Builtin` is not modelled (no
program considered here calls one). -/
inductive Obj where
  | intV (value : Int)
  | strV (value : String)
  | boolV (value : Bool)
  | nilV
  | retV (value : Obj)
  | errV (message : String)
  | fnV (fn : FnData)
  | classV (name : String) (methods : List (String × FnData))
  | instV (clsName : String) (clsMethods : List (String × FnData)) (fields : Nat)
  | moduleV (name : String) (path : String) (env : Nat) (privateEnv : Nat)
      (packageName : String)
  deriving Repr, BEq

/-- Method `type()`: the `ObjectType` string constants. -/
def Obj.type : Obj → String
  | .intV _ => "INTEGER"
  | .strV _ => "STRING"
  | .boolV _ => "BOOLEAN"
  | .nilV => "NIL"
  | .retV _ => "RETURN_VALUE"
  | .errV _ => "ERROR"
  | .fnV _ => "FUNCTION"
  | .classV _ _ => "CLASS"
  | .instV _ _ _ => "INSTANCE"
  | .moduleV _ _ _ _ _ => "MODULE"

/-- Method `is_truthy()`: `Integer` is truthy unless zero, `String` unless
empty, `Boolean` is its value, `Nil` and `Error` are falsy, everything
else inherits the truthy default of the `Object` base class. -/
def Obj.is_truthy : Obj → Bool
  | .intV v => v != 0
  | .strV s => s.length > 0
  | .boolV b => b
  | .nilV => false
  | .errV _ => false
  | _ => true

/-- Helper `is_error` (a type-tag check in the source). -/
def is_error (obj : Obj) : Bool := obj.type == "ERROR"

/-- Helper `is_return_value`. -/
def is_return_value (obj : Obj) : Bool := obj.type == "RETURN_VALUE"

/-- First-match lookup in a dict-like association list. -/
def lookupStore : List (String × Obj) → String → Option Obj
  | [], _ => none
  | (k, v) :: rest, name => if k = name then some v else lookupStore rest name

/-- Python dict assignment `d[name] = v`: replace in place when the key is
present, append otherwise (preserving insertion order). -/
def dictSet : List (String × Obj) → String → Obj → List (String × Obj)
  | [], name, v => [(name, v)]
  | (k, w) :: rest, name, v =>
    if k = name then (k, v) :: rest else (k, w) :: dictSet rest name v

/-- Lookup in a class method table (`Class.get_method` / dict `.get`). -/
def lookupFn : List (String × FnData) → String → Option FnData
  | [], _ => none
  | (k, v) :: rest, name => if k = name then some v else lookupFn rest name

/-- Dict assignment into a method table. -/
def dictSetFn : List (String × FnData) → String → FnData → List (String × FnData)
  | [], name, v => [(name, v)]
  | (k, w) :: rest, name, v =>
    if k = name then (k, v) :: rest else (k, w) :: dictSetFn rest name v

/-- Dict assignment into the module cache. -/
def dictSetMod : List (String × Obj) → String → Obj → List (String × Obj)
  | [], name, v => [(name, v)]
  | (k, w) :: rest, name, v =>
    if k = name then (k, v) :: rest else (k, w) :: dictSetMod rest name v

/-- An `Environment`: local binding store plus optional outer reference. -/
structure Frame where
  store : List (String × Obj)
  outer : Option Nat
  deriving Repr

/-- Method `Environment.get`: search the local store, then walk the outer
chain.  Frames are always allocated with an outer reference strictly
smaller than their own index, so the walk strictly descends; the
structural counter `fuel` (seeded with `ref + 1`) together with the
`o < ref` guard makes the recursion total on arbitrary heaps without ever
cutting the walk short on a reachable heap. -/
def envGetGo (heap : List Frame) : Nat → Nat → String → Option Obj
  | 0, _, _ => none
  | fuel + 1, ref, name =>
    match heap[ref]? with
    | none => none
    | some fr =>
      match lookupStore fr.store name with
      | some v => some v
      | none =>
        match fr.outer with
        | none => none
        | some o => if o < ref then envGetGo heap fuel o name else none

def envGet (heap : List Frame) (ref : Nat) (name : String) : Option Obj :=
  envGetGo heap (ref + 1) ref name

/-- Method `Environment.set`: always writes the local store of the given
frame. -/
def envSetHeap (heap : List Frame) (ref : Nat) (name : String) (v : Obj) :
    List Frame :=
  match heap[ref]? with
  | some fr => heap.set ref { fr with store := dictSet fr.store name v }
  | none => heap

/-- Allocation of a fresh empty `Environment` (constructor call, and
`new_enclosed_environment` when `outer` is given). -/
def allocFrame (heap : List Frame) (outer : Option Nat) : List Frame × Nat :=
  (heap ++ [⟨[], outer⟩], heap.length)

/-- Allocation of an `Environment` already holding a store (used to model
the fill-by-loop construction of a module public view). -/
def allocFrameStore (heap : List Frame) (store : List (String × Obj)) :
    List Frame × Nat :=
  (heap ++ [⟨store, none⟩], heap.length)

/-- The `ModuleManager`: module cache and in-flight loading stack.  The
`search_paths` field is part of the abstracted filesystem. -/
structure ModuleManager where
  loaded_modules : List (String × Obj)
  loading_stack : List String
  deriving Repr

/-- Method `ModuleManager.is_loading`. -/
def ModuleManager.is_loading (mgr : ModuleManager) (path : String) : Bool :=
  mgr.loading_stack.contains path

/-- Method `ModuleManager.start_loading`. -/
def ModuleManager.start_loading (mgr : ModuleManager) (path : String) :
    ModuleManager :=
  { mgr with loading_stack := mgr.loading_stack ++ [path] }

/-- Python `list.remove`: drop the first occurrence. -/
def removeFirst : List String → String → List String
  | [], _ => []
  | p :: rest, x => if p = x then rest else p :: removeFirst rest x

/-- Method `ModuleManager.finish_loading`: remove the first occurrence of
the path from the loading stack (a no-op when absent, as in the guarded
source). -/
def ModuleManager.finish_loading (mgr : ModuleManager) (path : String) :
    ModuleManager :=
  { mgr with loading_stack := removeFirst mgr.loading_stack path }

/-- The full evaluator state: the frame heap, the (process-global in
Python) module manager, and `fs`, the read-only abstraction of the
filesystem mapping each resolvable import path to its source text. -/
structure EvalState where
  heap : List Frame
  modules : ModuleManager
  fs : List (String × String)
  deriving Repr

/-- Source text of a resolvable module path (abstracting
`ModuleManager.resolve_module_path` plus the file read). -/
def lookupSrc : List (String × String) → String → Option String
  | [], _ => none
  | (k, v) :: rest, name => if k = name then some v else lookupSrc rest name

/-- Function `extract_module_name`: strip a `.zen` extension, then take the
last `/`-separated component (backslashes are replaced by slashes first). -/
def splitOnChar (sep : Char) : List Char → List (List Char)
  | [] => [[]]
  | c :: rest =>
    let ps := splitOnChar sep rest
    if c = sep then [] :: ps
    else
      match ps with
      | p :: ps1 => (c :: p) :: ps1
      | [] => [[c]]

def extract_module_name (module_path : String) : String :=
  let cs := module_path.data
  let cs := match cs.reverse with
    | 'n' :: 'e' :: 'z' :: '.' :: rev => rev.reverse
    | _ => cs
  let cs := cs.map fun c => if c = '\\' then '/' else c
  let parts := splitOnChar '/' cs
  String.mk ((parts.getLast?).getD [])

/-- Function `is_public_name`: names starting with a double underscore are
internal; otherwise a name is public exactly when nonempty with an
uppercase first character (`str.isupper` on the ASCII identifiers the
lexer can produce). -/
def is_public_name (name : String) : Bool :=
  match name.data with
  | '_' :: '_' :: _ => false
  | c :: _ => c.isUpper
  | [] => false

/-- The public-view construction loop of `load_module`: iterate the module
namespace in insertion order, copying the bindings with public names. -/
def buildPublicStore (store : List (String × Obj)) : List (String × Obj) :=
  store.foldl (fun acc p => if is_public_name p.1 then dictSet acc p.1 p.2 else acc) []

/-! ## Pure operator semantics (evaluator/evaluator.py) -/

/-- Function `apply_bang_operator`.  The identity tests against the `TRUE`,
`FALSE` and `NIL` singletons become value tests: the interpreter only ever
creates Booleans through these singletons. -/
def apply_bang_operator : Obj → Obj
  | .boolV true => .boolV false
  | .boolV false => .boolV true
  | .nilV => .boolV true
  | _ => .boolV false

/-- Function `apply_minus_operator`. -/
def apply_minus_operator : Obj → Obj
  | .intV v => .intV (-v)
  | o => .errV ("Unknown operator: -" ++ o.type)

/-- Function `apply_prefix_operator`. -/
def apply_prefix_operator (operator : String) (right : Obj) : Obj :=
  if operator = "!" then apply_bang_operator right
  else if operator = "-" then apply_minus_operator right
  else .errV ("Unknown prefix operator: " ++ operator)

/-- Function `apply_integer_infix_operator`.  Python `//` is floor
division, `Int.fdiv` in Lean. -/
def apply_integer_infix_operator (operator : String) (l r : Int) : Obj :=
  if operator = "+" then .intV (l + r)
  else if operator = "-" then .intV (l - r)
  else if operator = "*" then .intV (l * r)
  else if operator = "/" then
    if r = 0 then .errV "Division by zero" else .intV (Int.fdiv l r)
  else if operator = "<" then .boolV (decide (l < r))
  else if operator = ">" then .boolV (decide (l > r))
  else if operator = "<=" then .boolV (decide (l ≤ r))
  else if operator = ">=" then .boolV (decide (l ≥ r))
  else if operator = "==" then .boolV (decide (l = r))
  else if operator = "!=" then .boolV (decide (l ≠ r))
  else .errV ("Unknown integer operator: " ++ operator)

/-- Function `apply_string_infix_operator`. -/
def apply_string_infix_operator (operator : String) (l r : String) : Obj :=
  if operator = "+" then .strV (l ++ r)
  else if operator = "==" then .boolV (decide (l = r))
  else if operator = "!=" then .boolV (decide (l ≠ r))
  else .errV ("Unknown string operator: " ++ operator)

/-- Function `objects_equal`: same type tags required, then value equality
for Integer/String/Boolean and Nil.  The final Python fallback is
reference identity (`left is right`); Instances are identified by their
uniquely allocated field environment, which makes the value test below
exact for them.  For the remaining composite objects this embedding has
no allocation token and uses structural equality, which coincides with
identity except between distinct-but-identical allocations (never the
case in any program considered here). -/
def objects_equal (left right : Obj) : Bool :=
  if left.type ≠ right.type then false
  else
    match left, right with
    | .intV a, .intV b => a == b
    | .strV a, .strV b => a == b
    | .boolV a, .boolV b => a == b
    | .nilV, .nilV => true
    | .instV _ _ f1, .instV _ _ f2 => f1 == f2
    | l, r => l == r

/-- Function `apply_equality_operator`. -/
def apply_equality_operator (operator : String) (left right : Obj) : Obj :=
  if operator = "==" then .boolV (objects_equal left right)
  else if operator = "!=" then .boolV (!objects_equal left right)
  else .errV ("Unknown equality operator: " ++ operator)

/-- Function `apply_logical_operator`: the result is chosen by the left
operand truthiness (both operands have already been evaluated by the
caller). -/
def apply_logical_operator (operator : String) (left right : Obj) : Obj :=
  if operator = "&&" then
    if !left.is_truthy then left else right
  else if operator = "||" then
    if left.is_truthy then left else right
  else .errV ("Unknown logical operator: " ++ operator)

/-- Function `apply_infix_operator`: dispatch on the dynamic type pair —
Integer pairs, then String pairs, then generic equality for `==`/`!=`,
then `&&`/`||`, else an unknown-operator error. -/
def apply_infix_operator (operator : String) (left right : Obj) : Obj :=
  match left, right with
  | .intV a, .intV b => apply_integer_infix_operator operator a b
  | .strV a, .strV b => apply_string_infix_operator operator a b
  | _, _ =>
    if operator = "==" || operator = "!=" then
      apply_equality_operator operator left right
    else if operator = "&&" || operator = "||" then
      apply_logical_operator operator left right
    else
      .errV ("Unknown operator: " ++ left.type ++ " " ++ operator ++ " " ++ right.type)

/-- Python `repr` of an AST node class, as interpolated by the
invalid-assignment-target error message. -/
def astClassName : Expr → String
  | .Identifier _ => "<class \x27zen_ast.ast.Identifier\x27>"
  | .IntegerLiteral _ => "<class \x27zen_ast.ast.IntegerLiteral\x27>"
  | .StringLiteral _ => "<class \x27zen_ast.ast.StringLiteral\x27>"
  | .BooleanLiteral _ => "<class \x27zen_ast.ast.BooleanLiteral\x27>"
  | .NilLiteral => "<class \x27zen_ast.ast.NilLiteral\x27>"
  | .SelfExpression => "<class \x27zen_ast.ast.SelfExpression\x27>"
  | .PrefixExpression _ _ => "<class \x27zen_ast.ast.PrefixExpression\x27>"
  | .InfixExpression _ _ _ => "<class \x27zen_ast.ast.InfixExpression\x27>"
  | .CallExpression _ _ => "<class \x27zen_ast.ast.CallExpression\x27>"
  | .MemberAccessExpression _ _ => "<class \x27zen_ast.ast.MemberAccessExpression\x27>"

/-- Function `create_bound_method`: a fresh environment enclosing the
method closure with `self` bound to the instance; a leading `self`
parameter is stripped. -/
def create_bound_method (heap : List Frame) (method : FnData) (inst : Obj) :
    Obj × List Frame :=
  let (heap1, boundEnv) := allocFrame heap (some method.env)
  let heap2 := envSetHeap heap1 boundEnv "self" inst
  let params := match method.parameters with
    | p :: rest => if p = "self" then rest else method.parameters
    | [] => method.parameters
  (Obj.fnV ⟨params, method.body, boundEnv, method.name⟩, heap2)

/-- The method-table construction loop of `eval_class_statement` (the
parser stores only `FunctionStatement`s in a class body; anything else
is skipped). -/
def collectMethods (env : Nat) (nodes : List Stmt) : List (String × FnData) :=
  nodes.foldl
    (fun acc node =>
      match node with
      | .FunctionStatement n p b => dictSetFn acc n ⟨p, b, env, n⟩
      | _ => acc)
    []

/-- Parameter binding loop of `apply_user_function` (`zip`). -/
def bindParams (heap : List Frame) (env : Nat) :
    List String → List Obj → List Frame
  | p :: ps, a :: rest => bindParams (envSetHeap heap env p a) env ps rest
  | _, _ => heap

/-! ## The evaluator (evaluator/evaluator.py)

All functions take a fuel parameter and return `none` exactly when the
fuel runs out; `some (obj, st)` is the object the Python function returns
together with the heap/module state after its side effects.  The
Python `eval_node` dispatch splits here into `eval_stmt` (statements),
`eval_expr` (expressions) and `eval_node_opt` (the `node is None` check
guarding possibly-absent children). -/

abbrev EvalRes := Option (Obj × EvalState)

mutual

/-- Statement dispatch of `eval_node`, plus the bodies of
`eval_return_statement`, `eval_package_statement`,
`eval_function_statement` and `eval_class_statement`. -/
def eval_stmt (fuel : Nat) (stmt : Stmt) (env : Nat) (st : EvalState) : EvalRes :=
  match fuel with
  | 0 => none
  | fuel + 1 =>
    match stmt with
    | .BlockStatement ss => eval_block_statement fuel ss env st
    | .ExpressionStatement e => eval_expr fuel e env st
    | .ReturnStatement v =>
      match v with
      | none => some (.retV .nilV, st)
      | some e =>
        match eval_expr fuel e env st with
        | none => none
        | some (val, st1) =>
          if is_error val then some (val, st1) else some (.retV val, st1)
    | .AssignStatement target value => eval_assign_statement fuel target value env st
    | .PackageStatement name =>
      some (.nilV, { st with heap := envSetHeap st.heap env "__package__" (.strV name) })
    | .LoadStatement imports => eval_load_statement fuel imports .nilV env st
    | .FunctionStatement name params body =>
      let fn := Obj.fnV ⟨params, body, env, name⟩
      some (fn, { st with heap := envSetHeap st.heap env name fn })
    | .ClassStatement name methods =>
      let cls := Obj.classV name (collectMethods env methods)
      some (cls, { st with heap := envSetHeap st.heap env name cls })
  termination_by structural fuel


/-- Function `eval_program`: statements in order, short-circuiting on the
first `ReturnValue` (unwrapped) or `Error`; the value of the last
statement (or `Nil` for an empty program) otherwise. -/
def eval_program (fuel : Nat) (statements : List Stmt) (env : Nat) (st : EvalState) :
    EvalRes :=
  match fuel with
  | 0 => none
  | fuel + 1 =>
    match statements with
    | [] => some (.nilV, st)
    | s :: rest =>
      match eval_stmt fuel s env st with
      | none => none
      | some (r, st1) =>
        match r with
        | .retV v => some (v, st1)
        | .errV _ => some (r, st1)
        | _ =>
          match rest with
          | [] => some (r, st1)
          | _ => eval_program fuel rest env st1
  termination_by structural fuel


/-- Function `eval_block_statement`: like `eval_program` but forwards a
`ReturnValue` without unwrapping it. -/
def eval_block_statement (fuel : Nat) (statements : List Stmt) (env : Nat)
    (st : EvalState) : EvalRes :=
  match fuel with
  | 0 => none
  | fuel + 1 =>
    match statements with
    | [] => some (.nilV, st)
    | s :: rest =>
      match eval_stmt fuel s env st with
      | none => none
      | some (r, st1) =>
        match r with
        | .retV _ => some (r, st1)
        | .errV _ => some (r, st1)
        | _ =>
          match rest with
          | [] => some (r, st1)
          | _ => eval_block_statement fuel rest env st1
  termination_by structural fuel


/-- Expression dispatch of `eval_node`, plus the bodies of
`eval_identifier`, `eval_self_expression`, `eval_prefix_expression` and
`eval_infix_expression`. -/
def eval_expr (fuel : Nat) (e : Expr) (env : Nat) (st : EvalState) : EvalRes :=
  match fuel with
  | 0 => none
  | fuel + 1 =>
    match e with
    | .IntegerLiteral n => some (.intV n, st)
    | .StringLiteral s => some (.strV s, st)
    | .BooleanLiteral b => some (.boolV b, st)
    | .NilLiteral => some (.nilV, st)
    | .SelfExpression =>
      match envGet st.heap env "self" with
      | some o => some (o, st)
      | none => some (.errV "\x27self\x27 used outside of instance method", st)
    | .Identifier name =>
      match envGet st.heap env name with
      | some v => some (v, st)
      | none => some (.errV ("Identifier not found: " ++ name), st)
    | .PrefixExpression op r =>
      match eval_expr fuel r env st with
      | none => none
      | some (right, st1) =>
        if is_error right then some (right, st1)
        else some (apply_prefix_operator op right, st1)
    | .InfixExpression l op r =>
      match eval_node_opt fuel l env st with
      | none => none
      | some (left, st1) =>
        if is_error left then some (left, st1)
        else
          match eval_node_opt fuel r env st1 with
          | none => none
          | some (right, st2) =>
            if is_error right then some (right, st2)
            else some (apply_infix_operator op left right, st2)
    | .CallExpression f args => eval_call_expression fuel f args env st
    | .MemberAccessExpression obj m => eval_member_access_expression fuel obj m env st
  termination_by structural fuel


/-- The `node is None` guard at the top of `eval_node`: an absent node
evaluates to the `Nil` singleton. -/
def eval_node_opt (fuel : Nat) (e : Option Expr) (env : Nat) (st : EvalState) :
    EvalRes :=
  match fuel with
  | 0 => none
  | fuel + 1 =>
    match e with
    | none => some (.nilV, st)
    | some e => eval_expr fuel e env st
  termination_by structural fuel


/-- Function `eval_assign_statement`: evaluate the value, then write it to
an `Identifier` target (local frame of the current environment) or
delegate a `MemberAccess` target; any other target is an error. -/
def eval_assign_statement (fuel : Nat) (target value : Expr) (env : Nat)
    (st : EvalState) : EvalRes :=
  match fuel with
  | 0 => none
  | fuel + 1 =>
    match eval_expr fuel value env st with
    | none => none
    | some (v, st1) =>
      if is_error v then some (v, st1)
      else
        match target with
        | .Identifier name =>
          some (v, { st1 with heap := envSetHeap st1.heap env name v })
        | .MemberAccessExpression objE member =>
          eval_member_assignment fuel objE member v env st1
        | t => some (.errV ("Invalid assignment target: " ++ astClassName t), st1)
  termination_by structural fuel


/-- Function `eval_member_assignment`: the object must evaluate to an
`Instance`; the field is written to its field store. -/
def eval_member_assignment (fuel : Nat) (objE : Option Expr) (member : String)
    (value : Obj) (env : Nat) (st : EvalState) : EvalRes :=
  match fuel with
  | 0 => none
  | fuel + 1 =>
    match eval_node_opt fuel objE env st with
    | none => none
    | some (obj, st1) =>
      if is_error obj then some (obj, st1)
      else
        match obj with
        | .instV _ _ fref =>
          some (value, { st1 with heap := envSetHeap st1.heap fref member value })
        | _ => some (.errV ("Cannot assign to member of " ++ obj.type), st1)
  termination_by structural fuel


/-- Function `eval_load_statement`: load each import in order, failing on
the first error; the result is the last loaded module (`Nil` when the
list of imports is empty). -/
def eval_load_statement (fuel : Nat) (imports : List String) (result : Obj)
    (env : Nat) (st : EvalState) : EvalRes :=
  match fuel with
  | 0 => none
  | fuel + 1 =>
    match imports with
    | [] => some (result, st)
    | p :: rest =>
      match load_module fuel p env st with
      | none => none
      | some (m, st1) =>
        if is_error m then some (m, st1)
        else eval_load_statement fuel rest m env st1
  termination_by structural fuel


/-- Function `load_module`, excluding its `try/finally` body: cache hit →
rebind and return the cached module; path on the in-flight loading stack →
circular-import error; unresolvable path → module-not-found error;
otherwise push the path and run the body, always popping the path
afterwards (the `finally` clause). -/
def load_module (fuel : Nat) (path : String) (env : Nat) (st : EvalState) :
    EvalRes :=
  match fuel with
  | 0 => none
  | fuel + 1 =>
    match lookupStore st.modules.loaded_modules path with
    | some cached =>
      some (cached, { st with heap := envSetHeap st.heap env (extract_module_name path) cached })
    | none =>
      if st.modules.is_loading path then
        some (.errV ("Circular import detected: " ++ path), st)
      else
        match lookupSrc st.fs path with
        | none => some (.errV ("Module not found: " ++ path), st)
        | some source =>
          let st1 := { st with modules := st.modules.start_loading path }
          match load_module_body fuel path source env st1 with
          | none => none
          | some (r, st2) =>
            some (r, { st2 with modules := st2.modules.finish_loading path })
  termination_by structural fuel


/-- The `try` body of `load_module`: lex, parse (parse errors become an
error object), evaluate the program in a brand-new environment, read the
package marker, build the uppercase-only public view, construct and cache
the `Module`, and bind it in the importing environment.  (The Python body
also seeds builtins into the module environment; builtins are not
modelled.) -/
def load_module_body (fuel : Nat) (path source : String) (env : Nat)
    (st : EvalState) : EvalRes :=
  match fuel with
  | 0 => none
  | fuel + 1 =>
    match tokenize source with
    | none => some (.errV ("Error loading module " ++ path ++ ": lexer error"), st)
    | some toks =>
      match parse_program fuel toks with
      | none => none
      | some (prog, psF) =>
        if psF.errors ≠ [] then
          some (.errV ("Parse errors in " ++ path ++ ": "
            ++ String.intercalate "; " psF.errors), st)
        else
          let (heap1, moduleEnv) := allocFrame st.heap none
          match eval_program fuel prog moduleEnv { st with heap := heap1 } with
          | none => none
          | some (result, st2) =>
            if is_error result then some (result, st2)
            else
              let packageName :=
                match envGet st2.heap moduleEnv "__package__" with
                | some (.strV s) => s
                | _ => ""
              let fullStore := (st2.heap[moduleEnv]?.map Frame.store).getD []
              let (heap2, publicEnv) := allocFrameStore st2.heap (buildPublicStore fullStore)
              let m := Obj.moduleV (extract_module_name path) path publicEnv moduleEnv packageName
              let st3 := { st2 with
                heap := envSetHeap heap2 env (extract_module_name path) m,
                modules := { st2.modules with
                  loaded_modules := dictSetMod st2.modules.loaded_modules path m } }
              some (m, st3)
  termination_by structural fuel


/-- Function `eval_call_expression`: evaluate the callee, then the
arguments left to right (an error argument aborts), then apply. -/
def eval_call_expression (fuel : Nat) (f : Option Expr) (args : List Expr)
    (env : Nat) (st : EvalState) : EvalRes :=
  match fuel with
  | 0 => none
  | fuel + 1 =>
    match eval_node_opt fuel f env st with
    | none => none
    | some (fn, st1) =>
      if is_error fn then some (fn, st1)
      else
        match eval_arguments fuel args env st1 with
        | none => none
        | some (.error e, st2) => some (e, st2)
        | some (.ok vs, st2) => apply_function fuel fn vs st2
  termination_by structural fuel


/-- The argument loop of `eval_call_expression`. -/
def eval_arguments (fuel : Nat) (args : List Expr) (env : Nat) (st : EvalState) :
    Option (Except Obj (List Obj) × EvalState) :=
  match fuel with
  | 0 => none
  | fuel + 1 =>
    match args with
    | [] => some (.ok [], st)
    | a :: rest =>
      match eval_expr fuel a env st with
      | none => none
      | some (v, st1) =>
        if is_error v then some (.error v, st1)
        else
          match eval_arguments fuel rest env st1 with
          | none => none
          | some (.ok vs, st2) => some (.ok (v :: vs), st2)
          | some (.error e, st2) => some (.error e, st2)
  termination_by structural fuel


/-- Function `apply_function`: dispatch on the callee kind (`Builtin` is
not modelled; no program considered here reaches it). -/
def apply_function (fuel : Nat) (fn : Obj) (args : List Obj) (st : EvalState) :
    EvalRes :=
  match fuel with
  | 0 => none
  | fuel + 1 =>
    match fn with
    | .fnV d => apply_user_function fuel d args st
    | .classV name methods => apply_class_constructor fuel name methods args st
    | _ => some (.errV ("Not a function: " ++ fn.type), st)
  termination_by structural fuel


/-- Function `apply_user_function`: arity check, a fresh environment
enclosing the captured one, positional parameter binding, body
evaluation, `ReturnValue` unwrapping. -/
def apply_user_function (fuel : Nat) (d : FnData) (args : List Obj)
    (st : EvalState) : EvalRes :=
  match fuel with
  | 0 => none
  | fuel + 1 =>
    if args.length ≠ d.parameters.length then
      some (.errV ("Wrong number of arguments: expected "
        ++ toString d.parameters.length ++ ", got " ++ toString args.length), st)
    else
      let (heap1, extEnv) := allocFrame st.heap (some d.env)
      let heap2 := bindParams heap1 extEnv d.parameters args
      match eval_block_statement fuel d.body extEnv { st with heap := heap2 } with
      | none => none
      | some (evaluated, st1) =>
        match evaluated with
        | .retV v => some (v, st1)
        | r => some (r, st1)
  termination_by structural fuel


/-- Function `apply_class_constructor`: create a fresh instance with an
empty field environment; when an `__init__` method exists, call it with
the instance prepended, propagating an error result; otherwise (and in
every non-error case) return the instance. -/
def apply_class_constructor (fuel : Nat) (name : String)
    (methods : List (String × FnData)) (args : List Obj) (st : EvalState) :
    EvalRes :=
  match fuel with
  | 0 => none
  | fuel + 1 =>
    let (heap1, fieldsRef) := allocFrame st.heap none
    let inst := Obj.instV name methods fieldsRef
    let st1 := { st with heap := heap1 }
    match lookupFn methods "__init__" with
    | none => some (inst, st1)
    | some initFn =>
      match apply_user_function fuel initFn (inst :: args) st1 with
      | none => none
      | some (r, st2) =>
        if is_error r then some (r, st2) else some (inst, st2)
  termination_by structural fuel


/-- Function `eval_member_access_expression`: Instance → fields first,
then bound methods; Module → public view only; Class → method table;
anything else is an error. -/
def eval_member_access_expression (fuel : Nat) (objE : Option Expr)
    (member : String) (env : Nat) (st : EvalState) : EvalRes :=
  match fuel with
  | 0 => none
  | fuel + 1 =>
    match eval_node_opt fuel objE env st with
    | none => none
    | some (obj, st1) =>
      if is_error obj then some (obj, st1)
      else
        match obj with
        | .instV cname cmethods fref =>
          match envGet st1.heap fref member with
          | some v => some (v, st1)
          | none =>
            match lookupFn cmethods member with
            | some m =>
              let (bm, heap2) := create_bound_method st1.heap m obj
              some (bm, { st1 with heap := heap2 })
            | none =>
              some (.errV ("Attribute \x27" ++ member ++ "\x27 not found on "
                ++ cname ++ " instance"), st1)
        | .moduleV mname _ pubEnv _ _ =>
          match envGet st1.heap pubEnv member with
          | some v => some (v, st1)
          | none =>
            some (.errV ("Module \x27" ++ mname ++ "\x27 has no public attribute \x27"
              ++ member ++ "\x27"), st1)
        | .classV cname methods =>
          match lookupFn methods member with
          | some m => some (.fnV m, st1)
          | none =>
            some (.errV ("Class \x27" ++ cname ++ "\x27 has no attribute \x27"
              ++ member ++ "\x27"), st1)
        | _ =>
          some (.errV ("Cannot access member \x27" ++ member ++ "\x27 on "
            ++ obj.type), st1)
  termination_by structural fuel

end

/-- The initial evaluator state over a given (abstracted) filesystem: one
empty global environment frame, an empty module registry.  (The builtin
seeding of `Evaluator.__init__` is dropped; builtins are unmodelled.) -/
def initState (fs : List (String × String)) : EvalState :=
  ⟨[⟨[], none⟩], ⟨[], []⟩, fs⟩

/-- The `eval_source` helper of the repository test harness
(test_evaluator_advanced.py): lex, parse, report parse errors as a single
`Error` object, otherwise evaluate the program in a fresh environment and
return the result object. -/
def eval_source (fs : List (String × String)) (fuel : Nat) (src : String) :
    Option Obj :=
  match tokenize src with
  | none => none
  | some toks =>
    match parse_program fuel toks with
    | none => none
    | some (prog, psF) =>
      if psF.errors ≠ [] then
        some (.errV ("Parser errors: " ++ String.intercalate "; " psF.errors))
      else (eval_program fuel prog 0 (initState fs)).map Prod.fst

/-- Evaluation of a source text ignoring parse errors, as `eval_node`
would process the recovered AST directly. -/
def eval_source_unchecked (fs : List (String × String)) (fuel : Nat) (src : String) :
    Option Obj :=
  match tokenize src with
  | none => none
  | some toks =>
    match parse_program fuel toks with
    | none => none
    | some (prog, _) => (eval_program fuel prog 0 (initState fs)).map Prod.fst

/-! ## Concrete programs and pipeline helpers for the verified properties -/

/-- Printed form (`Program.string()`) of a parsed source text. -/
def parsed_program_string (src : String) : Option String :=
  match tokenize src with
  | none => none
  | some toks => (parse_program 100 toks).map fun p => programString p.1

/-- Parsed statement list of a source text. -/
def parsed_statements (src : String) : Option (List Stmt) :=
  match tokenize src with
  | none => none
  | some toks => (parse_program 100 toks).map Prod.fst

/-- The counter-closure program of the specification (§8 Closures), also
the second test of `test_closures` in test_evaluator_advanced.py. -/
def counterSrc : String :=
  "fx makeCounter() \x7b count = 0 return fx() \x7b count = count + 1 return count \x7d \x7d counter = makeCounter() counter() counter()"

/-- The same counter written with a named inner function, the only way the
grammar can express a closure-returning function (there is no
anonymous-function expression in the AST). -/
def namedCounterSrc : String :=
  "fx makeCounter() \x7b count = 0 fx inner() \x7b count = count + 1 return count \x7d return inner \x7d counter = makeCounter() counter() counter()"

/-- Two modules loading each other (specification §8, circular import). -/
def cycFs : List (String × String) :=
  [("a", "load(\"b\")"), ("b", "load(\"a\")")]

/-- The AST the parser recovers from `counterSrc` (three parse errors are
reported along the way): the anonymous `fx()` fails to parse, leaving a
bare `return` and a stray block inside `makeCounter`. -/
def counterProg : List Stmt :=
  [.FunctionStatement "makeCounter" []
     [.AssignStatement (.Identifier "count") (.IntegerLiteral 0),
      .ReturnStatement none,
      .BlockStatement
        [.AssignStatement (.Identifier "count")
           (.InfixExpression (some (.Identifier "count")) "+" (some (.IntegerLiteral 1))),
         .ReturnStatement (some (.Identifier "count"))]],
   .AssignStatement (.Identifier "counter")
     (.CallExpression (some (.Identifier "makeCounter")) []),
   .ExpressionStatement (.CallExpression (some (.Identifier "counter")) []),
   .ExpressionStatement (.CallExpression (some (.Identifier "counter")) [])]

/-- The AST of `namedCounterSrc` (parses cleanly). -/
def namedCounterProg : List Stmt :=
  [.FunctionStatement "makeCounter" []
     [.AssignStatement (.Identifier "count") (.IntegerLiteral 0),
      .FunctionStatement "inner" []
        [.AssignStatement (.Identifier "count")
           (.InfixExpression (some (.Identifier "count")) "+" (some (.IntegerLiteral 1))),
         .ReturnStatement (some (.Identifier "count"))],
      .ReturnStatement (some (.Identifier "inner"))],
   .AssignStatement (.Identifier "counter")
     (.CallExpression (some (.Identifier "makeCounter")) []),
   .ExpressionStatement (.CallExpression (some (.Identifier "counter")) []),
   .ExpressionStatement (.CallExpression (some (.Identifier "counter")) [])]

/-- C1.  The code does not deliver the claimed behavior: the anonymous
`fx()` expression has no registered prefix parse function, so the program
does not parse (the harness reports the three parse errors below);
evaluating the error-recovered AST anyway makes `makeCounter` return Nil
(the damaged `return` statement fires before the leftover block runs), so
calling `counter` fails with "Not a function: NIL"; and the named-closure
variant of the same program yields Integer 1, not 2, because
`eval_assign_statement` writes through `Environment.set` into the
innermost call frame instead of the captured defining frame, so the
increment is lost between the two calls. -/
theorem C1_counter_program_behavior :
    eval_source [] 60 counterSrc
      = some (.errV ("Parser errors: No prefix parse function for FX; "
          ++ "No prefix parse function for RPAREN; "
          ++ "Expected next token to be RPAREN, got LBRACE instead"))
    ∧ eval_source_unchecked [] 60 counterSrc
      = some (.errV "Not a function: NIL")
    ∧ eval_source [] 60 namedCounterSrc = some (.intV 1) := by
  have hcomp : eval_source_unchecked [] 60 counterSrc
      = (eval_program 60 counterProg 0 (initState [])).map Prod.fst := rfl
  have heval : (eval_program 60 counterProg 0 (initState [])).map Prod.fst
      = some (.errV "Not a function: NIL") := rfl
  have hcomp2 : eval_source [] 60 namedCounterSrc
      = (eval_program 60 namedCounterProg 0 (initState [])).map Prod.fst := rfl
  have heval2 : (eval_program 60 namedCounterProg 0 (initState [])).map Prod.fst
      = some (.intV 1) := rfl
  exact ⟨rfl, hcomp.trans heval, hcomp2.trans heval2⟩

/-- C3.  The four operator-precedence printed forms of the claim hold, and
`a - b - c` is left-associated, but `a.b.c` — though parsed with the
claimed left-nested structure — prints as `a.b.c`:
`MemberAccessExpression.string` adds no parentheses. -/
theorem C3_precedence_printed_forms :
    parsed_program_string "a + b * c" = some "(a + (b * c))"
    ∧ parsed_program_string "a * b + c" = some "((a * b) + c)"
    ∧ parsed_program_string "!-a" = some "(!(-a))"
    ∧ parsed_program_string "a - b - c" = some "((a - b) - c)"
    ∧ parsed_statements "a.b.c"
      = some [.ExpressionStatement
          (.MemberAccessExpression
            (some (.MemberAccessExpression (some (.Identifier "a")) "b")) "c")]
    ∧ parsed_program_string "a.b.c" = some "a.b.c"
    ∧ "a.b.c" ≠ "((a.b).c)" := by
  refine ⟨?_, ?_, ?_, ?_, ?_, ?_, ?_⟩ <;> first | rfl | decide

/-- C4, counterexample to the unknown-escape wording: lexing the source
`"a\qb"` keeps BOTH the backslash and the `q` in the String literal; the
claim would require the literal `aqb` with the backslash dropped. -/
theorem C4_unknown_escape_counterexample :
    tokenize "\"a\\qb\"" = some [⟨.STRING, .text "a\\qb"⟩, ⟨.EOF, .noneLit⟩]
    ∧ ("a\\qb" : String) ≠ "aqb" :=
  ⟨rfl, by decide⟩

/-- C4, amended: each recognized escape `\n \t \r \\ \"` decodes to its
escaped character (so lexing `"a\nb"` yields a String token whose literal
is the three characters `a`, LF, `b`), and a backslash followed by any
unrecognized character is kept as is: both the backslash and the
character appear unchanged in the literal. -/
theorem C4_escape_decoding (c : Char) (rest : List Char)
    (h : escapeChar c = none) :
    tokenize "\"a\\nb\"" = some [⟨.STRING, .text "a\nb"⟩, ⟨.EOF, .noneLit⟩]
    ∧ ("a\nb" : String).data = ['a', '\n', 'b']
    ∧ (∀ tail, decodeEscapes ('\\' :: 'n' :: tail) = '\n' :: decodeEscapes tail)
    ∧ (∀ tail, decodeEscapes ('\\' :: 't' :: tail) = '\t' :: decodeEscapes tail)
    ∧ (∀ tail, decodeEscapes ('\\' :: 'r' :: tail) = '\r' :: decodeEscapes tail)
    ∧ (∀ tail, decodeEscapes ('\\' :: '\\' :: tail) = '\\' :: decodeEscapes tail)
    ∧ (∀ tail, decodeEscapes ('\\' :: '"' :: tail) = '"' :: decodeEscapes tail)
    ∧ decodeEscapes ('\\' :: c :: rest) = '\\' :: c :: decodeEscapes rest := by
  have hc : c ≠ '\\' := by
    intro e
    rw [e] at h
    simp [escapeChar] at h
  refine ⟨rfl, rfl, fun _ => rfl, fun _ => rfl, fun _ => rfl, fun _ => rfl, fun _ => rfl, ?_⟩
  have hstep : decodeEscapes ('\\' :: c :: rest)
      = '\\' :: decodeEscapes (c :: rest) := by
    show (match escapeChar c with
      | some d => d :: decodeEscapes rest
      | none => '\\' :: decodeEscapes (c :: rest)) = '\\' :: decodeEscapes (c :: rest)
    rw [h]
  rw [hstep]
  congr 1
  rw [decodeEscapes.eq_def]
  split
  · rename_i heq
    simp at heq
  · rename_i c2 rest2 heq
    rw [List.cons.injEq] at heq
    exact (hc heq.1).elim
  · rename_i c2 rest2 heq
    rw [List.cons.injEq] at heq
    rw [heq.1, heq.2]

/-- Witness for C4: the unrecognized escape `\q` keeps backslash and `q`. -/
theorem C4_escape_decoding_witness :
    escapeChar 'q' = none
    ∧ decodeEscapes ['\\', 'q', 'b'] = ['\\', 'q', 'b'] :=
  ⟨rfl, (C4_escape_decoding 'q' ['b'] rfl).2.2.2.2.2.2.2⟩

/-- The floor-division identity `Int.fdiv (-a) (-b) = Int.fdiv a b`. -/
theorem fdiv_neg_neg : ∀ a b : Int, Int.fdiv (-a) (-b) = Int.fdiv a b
  | .ofNat 0, .ofNat 0 => rfl
  | .ofNat 0, .ofNat (_ + 1) => rfl
  | .ofNat 0, .negSucc _ => rfl
  | .ofNat (m + 1), .ofNat 0 => by
      show (0 : Int) = Int.ofNat ((m + 1) / 0)
      rw [Nat.div_zero]
      rfl
  | .ofNat (_ + 1), .ofNat (_ + 1) => rfl
  | .ofNat (_ + 1), .negSucc _ => rfl
  | .negSucc m, .ofNat 0 => by
      show Int.ofNat ((m + 1) / 0) = 0
      rw [Nat.div_zero]
      rfl
  | .negSucc _, .ofNat (_ + 1) => rfl
  | .negSucc _, .negSucc _ => rfl

/-- With a positive divisor, `Int.fdiv` is the rational floor. -/
theorem fdiv_eq_floor_pos (a : Int) {b : Int} (hb : 0 < b) :
    Int.fdiv a b = ⌊(a : ℚ) / (b : ℚ)⌋ := by
  rw [Int.fdiv_eq_ediv a hb.le]
  have h1 : ((b.toNat : ℤ)) = b := Int.toNat_of_nonneg hb.le
  have h2 := Rat.floor_intCast_div_natCast a b.toNat
  rw [h1] at h2
  rw [← h2]
  have h3 : ((b.toNat : ℚ)) = (b : ℚ) := by exact_mod_cast h1
  rw [h3]

/-- With any nonzero divisor, `Int.fdiv` is the floor of the exact
rational quotient (truncation toward negative infinity). -/
theorem fdiv_eq_floor (a : Int) {b : Int} (hb : b ≠ 0) :
    Int.fdiv a b = ⌊(a : ℚ) / (b : ℚ)⌋ := by
  rcases lt_or_gt_of_ne hb with hneg | hpos
  · calc Int.fdiv a b = Int.fdiv (-a) (-b) := (fdiv_neg_neg a b).symm
      _ = ⌊((-a : ℤ) : ℚ) / ((-b : ℤ) : ℚ)⌋ := fdiv_eq_floor_pos _ (by omega)
      _ = ⌊(a : ℚ) / (b : ℚ)⌋ := by push_cast; rw [neg_div_neg_eq]
  · exact fdiv_eq_floor_pos a hpos

/-- C5.  Integer division: dividing by zero yields the Error
"Division by zero" (a value, not a crash — the evaluator is a total
function), and otherwise the result is the Integer floor of the exact
quotient, so `-7 / 2` evaluates to Integer -4 and `10 / 0` to an Error. -/
theorem C5_integer_division :
    (∀ a b : Int, apply_integer_infix_operator "/" a b
      = if b = 0 then Obj.errV "Division by zero"
        else Obj.intV ⌊(a : ℚ) / (b : ℚ)⌋)
    ∧ eval_source [] 30 "-7 / 2" = some (.intV (-4))
    ∧ eval_source [] 30 "10 / 0" = some (.errV "Division by zero") := by
  refine ⟨fun a b => ?_, rfl, rfl⟩
  have h : apply_integer_infix_operator "/" a b
      = if b = 0 then Obj.errV "Division by zero" else Obj.intV (Int.fdiv a b) := by
    simp [apply_integer_infix_operator]
  rw [h]
  by_cases hb : b = 0
  · simp [hb]
  · simp [hb, fdiv_eq_floor a hb]

/-- A two-frame state: the global frame binds `o` to an instance whose
field store is frame 1. -/
def twoFrameState : EvalState :=
  ⟨[⟨[("o", .instV "C" [] 1)], none⟩, ⟨[], none⟩], ⟨[], []⟩, []⟩

/-- Integer-object test used to state the dispatch side conditions of the
infix-operator claims. -/
def isIntObj : Obj → Bool
  | .intV _ => true
  | _ => false

/-- String-object test, as `isIntObj`. -/
def isStrObj : Obj → Bool
  | .strV _ => true
  | _ => false

/-- C2, counterexample to short-circuiting: `eval_infix_expression`
evaluates the right operand unconditionally, so `false && 10 / 0`
propagates the division Error instead of producing `false`, and
`true || 10 / 0` propagates it instead of producing `true`. -/
theorem C2_short_circuit_counterexample :
    eval_source [] 30 "false && 10 / 0" = some (.errV "Division by zero")
    ∧ eval_source [] 30 "true || 10 / 0" = some (.errV "Division by zero")
    ∧ Obj.errV "Division by zero" ≠ Obj.boolV false
    ∧ Obj.errV "Division by zero" ≠ Obj.boolV true := by
  refine ⟨rfl, rfl, by simp, by simp⟩

/-- C2, amended: for `&&`/`||` on operands that are not both Integers and
not both Strings, BOTH operands are evaluated (left first; an Error from
either propagates), and the result is then chosen by the left value's
is-truthy: `l && r` yields the left value when it is not truthy and the
right value otherwise; `l || r` yields the left value when it is truthy
and the right value otherwise. -/
theorem C2_logical_eager_selection (fuel env : Nat) (l r : Option Expr)
    (st st1 st2 : EvalState) (vl vr : Obj)
    (hl : eval_node_opt fuel l env st = some (vl, st1))
    (hel : is_error vl = false)
    (hr : eval_node_opt fuel r env st1 = some (vr, st2))
    (her : is_error vr = false)
    (hni : ¬(isIntObj vl = true ∧ isIntObj vr = true))
    (hns : ¬(isStrObj vl = true ∧ isStrObj vr = true)) :
    eval_expr (fuel + 1) (.InfixExpression l "&&" r) env st
      = some ((if vl.is_truthy then vr else vl), st2)
    ∧ eval_expr (fuel + 1) (.InfixExpression l "||" r) env st
      = some ((if vl.is_truthy then vl else vr), st2) := by
  have key : ∀ op : String, (op = "&&" ∨ op = "||") →
      apply_infix_operator op vl vr = apply_logical_operator op vl vr := by
    intro op hop
    cases vl <;> cases vr <;> try (rcases hop with h | h <;> subst h <;> rfl)
    all_goals simp_all [isIntObj, isStrObj]
  have hstep : ∀ op : String, eval_expr (fuel + 1) (.InfixExpression l op r) env st
      = some (apply_infix_operator op vl vr, st2) := by
    intro op
    simp only [eval_expr, hl, hel, hr, her]
    simp
  have hand : apply_logical_operator "&&" vl vr = if vl.is_truthy then vr else vl := by
    by_cases ht : vl.is_truthy <;> simp [apply_logical_operator, ht]
  have hor : apply_logical_operator "||" vl vr = if vl.is_truthy then vl else vr := by
    by_cases ht : vl.is_truthy <;> simp [apply_logical_operator, ht]
  refine ⟨?_, ?_⟩
  · rw [hstep "&&", key "&&" (Or.inl rfl), hand]
  · rw [hstep "||", key "||" (Or.inr rfl), hor]

/-- Witness for C2 (amended): `false && nil` evaluates both operands and
yields the left value `false`. -/
theorem C2_logical_eager_selection_witness :
    eval_node_opt 3 (some (.BooleanLiteral false)) 0 (initState [])
      = some (.boolV false, initState [])
    ∧ is_error (Obj.boolV false) = false
    ∧ eval_expr 4 (.InfixExpression (some (.BooleanLiteral false)) "&&" (some .NilLiteral))
        0 (initState [])
      = some ((if (Obj.boolV false).is_truthy then Obj.nilV else Obj.boolV false),
          initState []) :=
  ⟨rfl, rfl,
    (C2_logical_eager_selection 3 0 (some (.BooleanLiteral false)) (some .NilLiteral)
      (initState []) (initState []) (initState []) (.boolV false) .nilV
      rfl rfl rfl rfl (by decide) (by decide)).1⟩

/-- Instance test used to state the member-assignment claim. -/
def isInstObj : Obj → Bool
  | .instV _ _ _ => true
  | _ => false

/-- C9.  Every assignment statement evaluates to the assigned value: an
`Identifier` target is bound in the current (innermost) environment frame;
a `MemberAccess` target whose object evaluates to an Instance writes the
field into that instance's field store; a `MemberAccess` target on a
non-Instance object yields an Error and performs no write at all (the
state is exactly the one after evaluating the subexpressions). -/
theorem C9_assignment_semantics (fuel env : Nat) (ve : Expr) (v : Obj)
    (st st1 : EvalState)
    (hv : eval_expr (fuel + 1) ve env st = some (v, st1))
    (hve : is_error v = false) :
    (∀ name, eval_stmt (fuel + 3) (.AssignStatement (.Identifier name) ve) env st
       = some (v, { st1 with heap := envSetHeap st1.heap env name v }))
    ∧ (∀ objE member cn cm fref st2,
        eval_node_opt fuel objE env st1 = some (.instV cn cm fref, st2) →
        eval_stmt (fuel + 3) (.AssignStatement (.MemberAccessExpression objE member) ve) env st
          = some (v, { st2 with heap := envSetHeap st2.heap fref member v }))
    ∧ (∀ objE member obj st2,
        eval_node_opt fuel objE env st1 = some (obj, st2) →
        is_error obj = false →
        isInstObj obj = false →
        eval_stmt (fuel + 3) (.AssignStatement (.MemberAccessExpression objE member) ve) env st
          = some (.errV ("Cannot assign to member of " ++ obj.type), st2)) := by
  refine ⟨?_, ?_, ?_⟩
  · intro name
    simp only [eval_stmt, eval_assign_statement, hv, hve]
    simp
  · intro objE member cn cm fref st2 hobj
    simp only [eval_stmt, eval_assign_statement, eval_member_assignment, hv, hve, hobj]
    simp [is_error, Obj.type]
  · intro objE member obj st2 hobj hoe hni
    simp only [eval_stmt, eval_assign_statement, eval_member_assignment, hv, hve, hobj, hoe]
    cases obj <;> simp_all [isInstObj]

/-- Witness for C9: assigning `5` to a plain name, to a field of a bound
instance, and to a member of a non-Instance (Nil) value. -/
theorem C9_assignment_semantics_witness :
    eval_expr 3 (.IntegerLiteral 5) 0 twoFrameState = some (.intV 5, twoFrameState)
    ∧ is_error (Obj.intV 5) = false
    ∧ eval_stmt 5 (.AssignStatement (.Identifier "x") (.IntegerLiteral 5)) 0 twoFrameState
      = some (.intV 5,
          { twoFrameState with heap := envSetHeap twoFrameState.heap 0 "x" (.intV 5) })
    ∧ eval_node_opt 2 (some (.Identifier "o")) 0 twoFrameState
      = some (.instV "C" [] 1, twoFrameState)
    ∧ eval_stmt 5 (.AssignStatement
        (.MemberAccessExpression (some (.Identifier "o")) "f") (.IntegerLiteral 5)) 0 twoFrameState
      = some (.intV 5,
          { twoFrameState with heap := envSetHeap twoFrameState.heap 1 "f" (.intV 5) })
    ∧ eval_stmt 5 (.AssignStatement
        (.MemberAccessExpression (some .NilLiteral) "f") (.IntegerLiteral 5)) 0 twoFrameState
      = some (.errV "Cannot assign to member of NIL", twoFrameState) := by
  refine ⟨rfl, rfl, ?_, rfl, ?_, ?_⟩
  · exact (C9_assignment_semantics 2 0 (.IntegerLiteral 5) (.intV 5)
      twoFrameState twoFrameState rfl rfl).1 "x"
  · exact (C9_assignment_semantics 2 0 (.IntegerLiteral 5) (.intV 5)
      twoFrameState twoFrameState rfl rfl).2.1 (some (.Identifier "o")) "f" "C" [] 1
      twoFrameState rfl
  · exact (C9_assignment_semantics 2 0 (.IntegerLiteral 5) (.intV 5)
      twoFrameState twoFrameState rfl rfl).2.2 (some .NilLiteral) "f" .nilV
      twoFrameState rfl rfl rfl

/-- C10.  Evaluating an absent AST node is total and yields Nil: the
`None` guard of the evaluator dispatch returns the Nil singleton without
touching the state, for every environment and state — so an absent child
left behind by parser error recovery flows through evaluation as Nil
(e.g. an infix node with a missing right operand produces an ordinary
unknown-operator Error, and member assignment through an absent object
produces an ordinary cannot-assign Error; neither can crash). -/
theorem C10_absent_node_evaluates_to_nil (fuel env : Nat) (st : EvalState) :
    eval_node_opt (fuel + 1) none env st = some (.nilV, st)
    ∧ eval_expr (fuel + 3) (.InfixExpression (some (.IntegerLiteral 1)) "+" none) env st
      = some (.errV "Unknown operator: INTEGER + NIL", st)
    ∧ eval_member_assignment (fuel + 2) none "f" (.intV 5) env st
      = some (.errV "Cannot assign to member of NIL", st) := by
  refine ⟨rfl, rfl, rfl⟩

/-- A one-method table body: `__init__(s)` returning 99 (closure frame 0). -/
def initRet99 : FnData :=
  ⟨["s"], [.ReturnStatement (some (.IntegerLiteral 99))], 0, "__init__"⟩

/-- C6.  Calling a Class: a fresh Instance with an empty field Environment
is created; without `__init__` the call returns it directly; with
`__init__` the method is invoked with the new Instance prepended as the
first argument (the positional binding of a leading `self` parameter is
the third conjunct), an Error result of `__init__` propagates, and in
every non-error case the call returns the Instance itself, regardless of
what `__init__` returned (the concrete `A()` below returns the instance
although its `__init__` returns 99; the concrete `B()` propagates the
division Error raised inside `__init__`). -/
theorem C6_class_constructor (fuel : Nat) (name : String)
    (methods : List (String × FnData)) (args : List Obj) (st : EvalState) :
    (lookupFn methods "__init__" = none →
      apply_class_constructor (fuel + 1) name methods args st
        = some (.instV name methods st.heap.length,
            { st with heap := st.heap ++ [⟨[], none⟩] }))
    ∧ (∀ initFn, lookupFn methods "__init__" = some initFn →
      apply_class_constructor (fuel + 1) name methods args st
        = (match apply_user_function fuel initFn
              (.instV name methods st.heap.length :: args)
              { st with heap := st.heap ++ [⟨[], none⟩] } with
           | none => none
           | some (r, st2) =>
             if is_error r then some (r, st2)
             else some (.instV name methods st.heap.length, st2)))
    ∧ (∀ (heap : List Frame) (env : Nat) (ps : List String) (inst : Obj) (rest : List Obj),
        bindParams heap env ("self" :: ps) (inst :: rest)
          = bindParams (envSetHeap heap env "self" inst) env ps rest)
    ∧ eval_source [] 40 "clx A \x7b fx __init__(s) \x7b return 99 \x7d \x7d A()"
      = some (.instV "A"
          [("__init__", ⟨["s"], [.ReturnStatement (some (.IntegerLiteral 99))], 0, "__init__"⟩)] 1)
    ∧ eval_source [] 40 "clx B \x7b fx __init__(s) \x7b return 1 / 0 \x7d \x7d B()"
      = some (.errV "Division by zero") := by
  refine ⟨?_, ?_, fun _ _ _ _ _ => rfl, rfl, rfl⟩
  · intro h
    simp only [apply_class_constructor, allocFrame, h]
  · intro initFn h
    simp only [apply_class_constructor, allocFrame, h]

/-- Witness for C6: a class without methods, and one whose `__init__`
(taking only `self`) returns 99. -/
theorem C6_class_constructor_witness :
    lookupFn ([] : List (String × FnData)) "__init__" = none
    ∧ apply_class_constructor 3 "E" [] [] (initState [])
      = some (.instV "E" [] 1, { initState [] with heap := [⟨[], none⟩, ⟨[], none⟩] })
    ∧ lookupFn [("__init__", initRet99)] "__init__" = some initRet99
    ∧ apply_class_constructor 3 "A" [("__init__", initRet99)] [] (initState [])
      = (match apply_user_function 2 initRet99
            [.instV "A" [("__init__", initRet99)] 1]
            { initState [] with heap := [⟨[], none⟩, ⟨[], none⟩] } with
         | none => none
         | some (r, st2) =>
           if is_error r then some (r, st2)
           else some (.instV "A" [("__init__", initRet99)] 1, st2)) :=
  ⟨rfl,
   (C6_class_constructor 2 "E" [] [] (initState [])).1 rfl,
   rfl,
   (C6_class_constructor 2 "A" [("__init__", initRet99)] [] (initState [])).2.1
     initRet99 rfl⟩

/-! ## Module visibility (C7): public-view construction lemmas -/

/-- Looking a name up in the public-filtered view of a store: entries are
kept exactly when their key is public, so the lookup succeeds exactly for
public names bound in the store. -/
theorem lookupStore_filter_public (S : List (String × Obj)) (name : String) :
    lookupStore (S.filter fun p => is_public_name p.1) name
      = if is_public_name name then lookupStore S name else none := by
  induction S with
  | nil => simp [lookupStore]
  | cons p rest ih =>
    rcases p with ⟨k, v⟩
    by_cases hk : is_public_name k
    · rw [List.filter_cons_of_pos (by simpa using hk)]
      by_cases he : k = name
      · subst he
        simp [lookupStore, hk]
      · simp only [lookupStore, if_neg he]
        exact ih
    · rw [List.filter_cons_of_neg (by simpa using hk)]
      rw [ih]
      by_cases he : k = name
      · subst he
        simp [lookupStore, hk]
      · simp [lookupStore, he]

/-- Python dict assignment appends when the key is fresh. -/
theorem dictSet_eq_append (acc : List (String × Obj)) (k : String) (v : Obj)
    (h : ∀ q ∈ acc, q.1 ≠ k) : dictSet acc k v = acc ++ [(k, v)] := by
  induction acc with
  | nil => rfl
  | cons q rest ih =>
    rcases q with ⟨k2, v2⟩
    have hk2 : k2 ≠ k := h (k2, v2) (List.mem_cons_self _ _)
    simp only [dictSet, if_neg hk2, List.cons_append, List.cons.injEq, true_and]
    exact ih fun q hq => h q (List.mem_cons_of_mem _ hq)

/-- The copy loop building the public view, generalized over the
accumulator: with pairwise-distinct keys it is the public filter. -/
theorem buildPublic_go (S : List (String × Obj)) :
    ∀ acc : List (String × Obj),
    (∀ p ∈ S, ∀ q ∈ acc, p.1 ≠ q.1) →
    (S.map Prod.fst).Nodup →
    S.foldl (fun acc p => if is_public_name p.1 then dictSet acc p.1 p.2 else acc) acc
      = acc ++ S.filter (fun p => is_public_name p.1) := by
  induction S with
  | nil => intro acc _ _; simp
  | cons p rest ih =>
    intro acc hdisj hnd
    rcases p with ⟨k, v⟩
    rw [List.map_cons, List.nodup_cons] at hnd
    by_cases hp : is_public_name k
    · simp only [List.foldl_cons, if_pos hp]
      rw [dictSet_eq_append acc k v
        (fun q hq => (hdisj (k, v) (List.mem_cons_self _ _) q hq).symm)]
      rw [ih (acc ++ [(k, v)]) ?_ hnd.2]
      · rw [List.filter_cons_of_pos (by simpa using hp)]
        simp
      · intro p2 hp2 q hq
        rcases List.mem_append.mp hq with hq | hq
        · exact hdisj p2 (List.mem_cons_of_mem _ hp2) q hq
        · have hq2 : q = (k, v) := by simpa using hq
          subst hq2
          intro e
          exact hnd.1 (e ▸ List.mem_map_of_mem Prod.fst hp2)
    · simp only [List.foldl_cons, if_neg hp]
      rw [ih acc (fun p2 hp2 q hq => hdisj p2 (List.mem_cons_of_mem _ hp2) q hq) hnd.2]
      rw [List.filter_cons_of_neg (by simpa using hp)]

/-- With distinct keys (always true of a store produced by dict writes)
the public view is the public filter of the module namespace. -/
theorem buildPublicStore_eq_filter (S : List (String × Obj))
    (hnd : (S.map Prod.fst).Nodup) :
    buildPublicStore S = S.filter (fun p => is_public_name p.1) := by
  have h := buildPublic_go S [] (by simp) hnd
  simpa [buildPublicStore] using h

/-- A state holding a module `m`: frame 1 is its public view (built from
the two-binding namespace), frame 2 its full namespace. -/
def moduleTestState : EvalState :=
  ⟨[⟨[("m", .moduleV "m" "m" 1 2 "")], none⟩,
    ⟨buildPublicStore [("Pub", Obj.intV 42), ("priv", Obj.intV 7)], none⟩,
    ⟨[("Pub", Obj.intV 42), ("priv", Obj.intV 7)], none⟩],
   ⟨[], []⟩, []⟩

/-- C7.  Module visibility: a name is public exactly when its first
character is uppercase (the double-underscore guard of `is_public_name`
is subsumed — in particular the internal marker `__package__` is
private); looking a member up in the constructed public view succeeds
exactly for public names bound in the module namespace; member access on
a Module value returns the bound value for a bound public name and the
no-public-attribute Error for a private or unbound name; and identifier
lookup inside the module's own (full) environment still reads a private
binding.  The closed conjuncts run the whole pipeline: module `m` binds
`priv = 7` and computes `Pub` from `priv` internally (so its own
evaluation reads the private binding), `m.Pub` yields 42 and `m.priv`
yields the Error. -/
theorem C7_module_visibility
    (S : List (String × Obj)) (hnd : (S.map Prod.fst).Nodup) :
    (∀ (name : String) (c : Char) (rest : List Char),
        name.data = c :: rest → is_public_name name = c.isUpper)
    ∧ is_public_name "__package__" = false
    ∧ (∀ member, lookupStore (buildPublicStore S) member
        = if is_public_name member then lookupStore S member else none)
    ∧ (∀ (fuel env : Nat) (member : String) (objE : Option Expr)
        (mname mpath : String) (pubRef privRef : Nat) (pkg : String)
        (st st1 : EvalState),
        eval_node_opt fuel objE env st
          = some (.moduleV mname mpath pubRef privRef pkg, st1) →
        st1.heap[pubRef]? = some ⟨buildPublicStore S, none⟩ →
        (∀ v, is_public_name member = true → lookupStore S member = some v →
          eval_member_access_expression (fuel + 1) objE member env st = some (v, st1))
        ∧ (is_public_name member = false →
          eval_member_access_expression (fuel + 1) objE member env st
            = some (.errV ("Module \x27" ++ mname ++ "\x27 has no public attribute \x27"
                ++ member ++ "\x27"), st1))
        ∧ (is_public_name member = true → lookupStore S member = none →
          eval_member_access_expression (fuel + 1) objE member env st
            = some (.errV ("Module \x27" ++ mname ++ "\x27 has no public attribute \x27"
                ++ member ++ "\x27"), st1)))
    ∧ (∀ (fuel env : Nat) (name : String) (v : Obj) (st : EvalState)
        (S2 : List (String × Obj)),
        st.heap[env]? = some ⟨S2, none⟩ → lookupStore S2 name = some v →
        eval_expr (fuel + 1) (.Identifier name) env st = some (v, st))
    ∧ eval_source [("m", "priv = 7 Pub = priv + 35")] 60 "load(\"m\") m.Pub"
      = some (.intV 42)
    ∧ eval_source [("m", "priv = 7 Pub = priv + 35")] 60 "load(\"m\") m.priv"
      = some (.errV "Module \x27m\x27 has no public attribute \x27priv\x27") := by
  have hfirst : ∀ (name : String) (c : Char) (rest : List Char),
      name.data = c :: rest → is_public_name name = c.isUpper := by
    intro name c rest hdata
    rw [is_public_name.eq_def, hdata]
    split
    · rename_i heq
      rw [List.cons.injEq] at heq
      rw [heq.1]
      decide
    · rename_i c2 tl heq
      rw [List.cons.injEq] at heq
      rw [heq.1]
    · rename_i heq
      simp at heq
  have hlook : ∀ member, lookupStore (buildPublicStore S) member
      = if is_public_name member then lookupStore S member else none := by
    intro member
    rw [buildPublicStore_eq_filter S hnd]
    exact lookupStore_filter_public S member
  refine ⟨hfirst, rfl, hlook, ?_, ?_, rfl, rfl⟩
  · intro fuel env member objE mname mpath pubRef privRef pkg st st1 hobj hframe
    have hget : envGet st1.heap pubRef member
        = if is_public_name member then lookupStore S member else none := by
      show envGetGo st1.heap (pubRef + 1) pubRef member = _
      simp only [envGetGo, hframe]
      rw [hlook member]
      by_cases hm : is_public_name member
      · simp only [if_pos hm]
        cases h2 : lookupStore S member <;> rfl
      · simp only [if_neg hm]
    refine ⟨?_, ?_, ?_⟩
    · intro v hm hv
      simp only [eval_member_access_expression, hobj]
      rw [show is_error (Obj.moduleV mname mpath pubRef privRef pkg) = false from rfl]
      simp only [Bool.false_eq_true, if_false]
      rw [hget, if_pos hm, hv]
    · intro hm
      simp only [eval_member_access_expression, hobj]
      rw [show is_error (Obj.moduleV mname mpath pubRef privRef pkg) = false from rfl]
      simp only [Bool.false_eq_true, if_false]
      rw [hget, if_neg (by simp [hm])]
    · intro hm hv
      simp only [eval_member_access_expression, hobj]
      rw [show is_error (Obj.moduleV mname mpath pubRef privRef pkg) = false from rfl]
      simp only [Bool.false_eq_true, if_false]
      rw [hget, if_pos hm, hv]
  · intro fuel env name v st S2 henv hv
    have hget : envGet st.heap env name = some v := by
      show envGetGo st.heap (env + 1) env name = some v
      simp only [envGetGo, henv, hv]
    simp only [eval_expr, hget]

/-- Witness for C7: a concrete two-binding namespace with a public `Pub`
and private `priv`, and a module value over it. -/
theorem C7_module_visibility_witness :
    ((([("Pub", Obj.intV 42), ("priv", Obj.intV 7)] : List (String × Obj)).map
        Prod.fst).Nodup)
    ∧ lookupStore (buildPublicStore [("Pub", Obj.intV 42), ("priv", Obj.intV 7)]) "priv"
        = none
    ∧ eval_member_access_expression 3 (some (.Identifier "m")) "Pub" 0 moduleTestState
        = some (.intV 42, moduleTestState)
    ∧ eval_member_access_expression 3 (some (.Identifier "m")) "priv" 0 moduleTestState
        = some (.errV "Module \x27m\x27 has no public attribute \x27priv\x27",
            moduleTestState)
    ∧ eval_expr 2 (.Identifier "priv") 2 moduleTestState
        = some (.intV 7, moduleTestState) := by
  have hnd : ((([("Pub", Obj.intV 42), ("priv", Obj.intV 7)] : List (String × Obj)).map
      Prod.fst).Nodup) := by decide
  have h := C7_module_visibility [("Pub", Obj.intV 42), ("priv", Obj.intV 7)] hnd
  refine ⟨hnd, ?_, ?_, ?_, ?_⟩
  · rw [h.2.2.1 "priv"]
    rfl
  · exact (h.2.2.2.1 2 0 "Pub" (some (.Identifier "m")) "m" "m" 1 2 ""
      moduleTestState moduleTestState rfl rfl).1 (.intV 42) rfl rfl
  · exact (h.2.2.2.1 2 0 "priv" (some (.Identifier "m")) "m" "m" 1 2 ""
      moduleTestState moduleTestState rfl rfl).2.1 rfl
  · exact h.2.2.2.2.1 1 2 "priv" (.intV 7) moduleTestState
      [("Pub", Obj.intV 42), ("priv", Obj.intV 7)] rfl rfl

/-! ## The loading-stack invariant (C8)

The `finally` clause of `load_module` removes the pushed path again on
every outcome, so a completed evaluation — of anything — leaves the
in-flight loading stack exactly as it found it.  The proof is a mutual
induction over the fuel across the whole evaluator. -/

/-- A completed evaluation result leaves the loading stack unchanged. -/
def PreservesStack (st : EvalState) (res : EvalRes) : Prop :=
  ∀ r st2, res = some (r, st2) →
    st2.modules.loading_stack = st.modules.loading_stack

/-- As `PreservesStack`, for the argument-list evaluator. -/
def PreservesStackA (st : EvalState)
    (res : Option (Except Obj (List Obj) × EvalState)) : Prop :=
  ∀ r st2, res = some (r, st2) →
    st2.modules.loading_stack = st.modules.loading_stack

/-- The invariant, stated for every function of the evaluator at once. -/
def StackInv (fuel : Nat) : Prop :=
  (∀ s env st, PreservesStack st (eval_stmt fuel s env st))
  ∧ (∀ ss env st, PreservesStack st (eval_program fuel ss env st))
  ∧ (∀ ss env st, PreservesStack st (eval_block_statement fuel ss env st))
  ∧ (∀ e env st, PreservesStack st (eval_expr fuel e env st))
  ∧ (∀ e env st, PreservesStack st (eval_node_opt fuel e env st))
  ∧ (∀ t v env st, PreservesStack st (eval_assign_statement fuel t v env st))
  ∧ (∀ o m v env st, PreservesStack st (eval_member_assignment fuel o m v env st))
  ∧ (∀ im r env st, PreservesStack st (eval_load_statement fuel im r env st))
  ∧ (∀ p env st, PreservesStack st (load_module fuel p env st))
  ∧ (∀ p src env st, PreservesStack st (load_module_body fuel p src env st))
  ∧ (∀ f a env st, PreservesStack st (eval_call_expression fuel f a env st))
  ∧ (∀ a env st, PreservesStackA st (eval_arguments fuel a env st))
  ∧ (∀ fn a st, PreservesStack st (apply_function fuel fn a st))
  ∧ (∀ d a st, PreservesStack st (apply_user_function fuel d a st))
  ∧ (∀ n m a st, PreservesStack st (apply_class_constructor fuel n m a st))
  ∧ (∀ o m env st, PreservesStack st (eval_member_access_expression fuel o m env st))

/-- Python `list.remove` after an append of a fresh element restores the
original list. -/
theorem removeFirst_append_self (l : List String) (p : String) (h : p ∉ l) :
    removeFirst (l ++ [p]) p = l := by
  induction l with
  | nil => simp [removeFirst]
  | cons q rest ih =>
    have hq : ¬(q = p) := fun e => h (e ▸ List.mem_cons_self q rest)
    simp only [List.cons_append, removeFirst, if_neg hq, List.cons.injEq, true_and]
    exact ih fun hm => h (List.mem_cons_of_mem _ hm)

/-- A `contains` miss is non-membership. -/
theorem not_mem_of_contains_false {l : List String} {p : String}
    (h : l.contains p = false) : p ∉ l := by
  intro hm
  have h2 : List.elem p l = true := List.elem_eq_true_of_mem hm
  rw [show l.contains p = List.elem p l from rfl, h2] at h
  exact Bool.noConfusion h

/-- Transport a stack equality through an injected `some` result. -/
theorem stack_of_some {x r : Obj} {sta st2 st : EvalState}
    (h : (some (x, sta) : EvalRes) = some (r, st2))
    (hs : sta.modules.loading_stack = st.modules.loading_stack) :
    st2.modules.loading_stack = st.modules.loading_stack := by
  simp only [Option.some.injEq, Prod.mk.injEq] at h
  rw [← h.2]
  exact hs

/-- As `stack_of_some`, for the argument-list evaluator. -/
theorem stack_of_someA {x r : Except Obj (List Obj)} {sta st2 st : EvalState}
    (h : (some (x, sta) : Option (Except Obj (List Obj) × EvalState)) = some (r, st2))
    (hs : sta.modules.loading_stack = st.modules.loading_stack) :
    st2.modules.loading_stack = st.modules.loading_stack := by
  simp only [Option.some.injEq, Prod.mk.injEq] at h
  rw [← h.2]
  exact hs

/-- Every completed evaluation preserves the in-flight loading stack: the
path pushed by `load_module` is removed again by its cleanup step on
every outcome (success, parse error, evaluation error, load failure). -/
theorem eval_preserves_loading_stack : ∀ fuel, StackInv fuel := by
  intro fuel
  induction fuel with
  | zero =>
    refine ⟨?_, ?_, ?_, ?_, ?_, ?_, ?_, ?_, ?_, ?_, ?_, ?_, ?_, ?_, ?_, ?_⟩ <;>
      · intros
        intro r st2 h
        exact Option.noConfusion h
  | succ n ih =>
    obtain ⟨ihStmt, ihProg, ihBlock, ihExpr, ihOpt, ihAssign, ihMemAsg,
      ihLoadStmt, ihLoad, ihBody, ihCall, ihArgs, ihApply, ihUser, ihCtor,
      ihMember⟩ := ih
    refine ⟨?_, ?_, ?_, ?_, ?_, ?_, ?_, ?_, ?_, ?_, ?_, ?_, ?_, ?_, ?_, ?_⟩
    · -- eval_stmt
      intro s env st r st2 h
      simp only [eval_stmt] at h
      split at h
      · exact ihBlock _ _ _ _ _ h
      · exact ihExpr _ _ _ _ _ h
      · -- ReturnStatement
        split at h
        · exact stack_of_some h rfl
        · split at h
          · exact Option.noConfusion h
          · rename_i val st1 heq
            split at h
            · exact stack_of_some h (ihExpr _ _ _ _ _ heq)
            · exact stack_of_some h (ihExpr _ _ _ _ _ heq)
      · exact ihAssign _ _ _ _ _ _ h
      · exact stack_of_some h rfl
      · exact ihLoadStmt _ _ _ _ _ _ h
      · exact stack_of_some h rfl
      · exact stack_of_some h rfl
    · -- eval_program
      intro ss env st r st2 h
      simp only [eval_program] at h
      split at h
      · exact stack_of_some h rfl
      · split at h
        · exact Option.noConfusion h
        · rename_i r1 st1 heq
          have hs1 := ihStmt _ _ _ _ _ heq
          split at h
          · exact stack_of_some h hs1
          · exact stack_of_some h hs1
          · split at h
            · exact stack_of_some h hs1
            · exact (ihProg _ _ _ _ _ h).trans hs1
    · -- eval_block_statement
      intro ss env st r st2 h
      simp only [eval_block_statement] at h
      split at h
      · exact stack_of_some h rfl
      · split at h
        · exact Option.noConfusion h
        · rename_i r1 st1 heq
          have hs1 := ihStmt _ _ _ _ _ heq
          split at h
          · exact stack_of_some h hs1
          · exact stack_of_some h hs1
          · split at h
            · exact stack_of_some h hs1
            · exact (ihBlock _ _ _ _ _ h).trans hs1
    · -- eval_expr
      intro e env st r st2 h
      simp only [eval_expr] at h
      split at h
      · exact stack_of_some h rfl
      · exact stack_of_some h rfl
      · exact stack_of_some h rfl
      · exact stack_of_some h rfl
      · split at h
        · exact stack_of_some h rfl
        · exact stack_of_some h rfl
      · split at h
        · exact stack_of_some h rfl
        · exact stack_of_some h rfl
      · -- PrefixExpression
        split at h
        · exact Option.noConfusion h
        · rename_i right st1 heq
          have hs1 := ihExpr _ _ _ _ _ heq
          split at h
          · exact stack_of_some h hs1
          · exact stack_of_some h hs1
      · -- InfixExpression
        split at h
        · exact Option.noConfusion h
        · rename_i left st1 heq
          have hs1 := ihOpt _ _ _ _ _ heq
          split at h
          · exact stack_of_some h hs1
          · split at h
            · exact Option.noConfusion h
            · rename_i right st3 heq2
              have hs2 := (ihOpt _ _ _ _ _ heq2).trans hs1
              split at h
              · exact stack_of_some h hs2
              · exact stack_of_some h hs2
      · exact ihCall _ _ _ _ _ _ h
      · exact ihMember _ _ _ _ _ _ h
    · -- eval_node_opt
      intro e env st r st2 h
      simp only [eval_node_opt] at h
      split at h
      · exact stack_of_some h rfl
      · exact ihExpr _ _ _ _ _ h
    · -- eval_assign_statement
      intro t v env st r st2 h
      simp only [eval_assign_statement] at h
      split at h
      · exact Option.noConfusion h
      · rename_i v1 st1 heq
        have hs1 := ihExpr _ _ _ _ _ heq
        split at h
        · exact stack_of_some h hs1
        · split at h
          · exact stack_of_some h hs1
          · exact (ihMemAsg _ _ _ _ _ _ _ h).trans hs1
          · exact stack_of_some h hs1
    · -- eval_member_assignment
      intro o m v env st r st2 h
      simp only [eval_member_assignment] at h
      split at h
      · exact Option.noConfusion h
      · rename_i obj st1 heq
        have hs1 := ihOpt _ _ _ _ _ heq
        split at h
        · exact stack_of_some h hs1
        · split at h
          · exact stack_of_some h hs1
          · exact stack_of_some h hs1
    · -- eval_load_statement
      intro im res env st r st2 h
      simp only [eval_load_statement] at h
      split at h
      · exact stack_of_some h rfl
      · split at h
        · exact Option.noConfusion h
        · rename_i m1 st1 heq
          have hs1 := ihLoad _ _ _ _ _ heq
          split at h
          · exact stack_of_some h hs1
          · exact (ihLoadStmt _ _ _ _ _ _ h).trans hs1
    · -- load_module
      intro p env st r st2 h
      simp only [load_module] at h
      split at h
      · exact stack_of_some h rfl
      · split at h
        · exact stack_of_some h rfl
        · rename_i hnl
          split at h
          · exact stack_of_some h rfl
          · rename_i src heqsrc
            split at h
            · exact Option.noConfusion h
            · rename_i rb stB heqB
              have hsB := ihBody _ _ _ _ _ _ heqB
              refine stack_of_some h ?_
              show removeFirst stB.modules.loading_stack p
                = st.modules.loading_stack
              rw [hsB]
              show removeFirst (st.modules.loading_stack ++ [p]) p
                = st.modules.loading_stack
              refine removeFirst_append_self _ _ (not_mem_of_contains_false ?_)
              have hc : st.modules.is_loading p = false :=
                Bool.eq_false_iff.mpr hnl
              exact hc
    · -- load_module_body
      intro p src env st r st2 h
      simp only [load_module_body] at h
      split at h
      · exact stack_of_some h rfl
      · split at h
        · exact Option.noConfusion h
        · rename_i prog psF heqP
          split at h
          · exact stack_of_some h rfl
          · split at h
            · exact Option.noConfusion h
            · rename_i result st3 heqE
              have hsE := ihProg _ _ _ _ _ heqE
              split at h
              · exact stack_of_some h hsE
              · exact stack_of_some h hsE
    · -- eval_call_expression
      intro f a env st r st2 h
      simp only [eval_call_expression] at h
      split at h
      · exact Option.noConfusion h
      · rename_i fn st1 heq
        have hs1 := ihOpt _ _ _ _ _ heq
        split at h
        · exact stack_of_some h hs1
        · split at h
          · exact Option.noConfusion h
          · rename_i e st3 heqA
            exact stack_of_some h ((ihArgs _ _ _ _ _ heqA).trans hs1)
          · rename_i vs st3 heqA
            exact (ihApply _ _ _ _ _ h).trans ((ihArgs _ _ _ _ _ heqA).trans hs1)
    · -- eval_arguments
      intro a env st r st2 h
      simp only [eval_arguments] at h
      split at h
      · exact stack_of_someA h rfl
      · split at h
        · exact Option.noConfusion h
        · rename_i v st1 heq
          have hs1 := ihExpr _ _ _ _ _ heq
          split at h
          · exact stack_of_someA h hs1
          · split at h
            · exact Option.noConfusion h
            · rename_i vs st3 heqA
              exact stack_of_someA h ((ihArgs _ _ _ _ _ heqA).trans hs1)
            · rename_i e st3 heqA
              exact stack_of_someA h ((ihArgs _ _ _ _ _ heqA).trans hs1)
    · -- apply_function
      intro fn a st r st2 h
      simp only [apply_function] at h
      split at h
      · exact ihUser _ _ _ _ _ h
      · exact ihCtor _ _ _ _ _ _ h
      · exact stack_of_some h rfl
    · -- apply_user_function
      intro d a st r st2 h
      simp only [apply_user_function] at h
      split at h
      · exact stack_of_some h rfl
      · split at h
        · exact Option.noConfusion h
        · rename_i evaluated st1 heq
          have hs1 := ihBlock _ _ _ _ _ heq
          split at h
          · exact stack_of_some h hs1
          · exact stack_of_some h hs1
    · -- apply_class_constructor
      intro nm ms a st r st2 h
      simp only [apply_class_constructor] at h
      split at h
      · exact stack_of_some h rfl
      · rename_i initFn heqI
        split at h
        · exact Option.noConfusion h
        · rename_i r1 st3 heqU
          have hsU := ihUser _ _ _ _ _ heqU
          split at h
          · exact stack_of_some h hsU
          · exact stack_of_some h hsU
    · -- eval_member_access_expression
      intro o m env st r st2 h
      simp only [eval_member_access_expression] at h
      split at h
      · exact Option.noConfusion h
      · rename_i obj st1 heq
        have hs1 := ihOpt _ _ _ _ _ heq
        split at h
        · exact stack_of_some h hs1
        · split at h
          · split at h
            · exact stack_of_some h hs1
            · split at h
              · exact stack_of_some h hs1
              · exact stack_of_some h hs1
          · split at h
            · exact stack_of_some h hs1
            · exact stack_of_some h hs1
          · split at h
            · exact stack_of_some h hs1
            · exact stack_of_some h hs1
          · exact stack_of_some h hs1

/-- C8.  Circular imports: a load of a path that is on the in-flight
loading stack (and not in the cache) returns the "Circular import
detected" Error immediately, leaving the state untouched; every completed
load restores the loading stack it started from, because the cleanup step
removes the pushed path on success and failure alike; and the concrete
two-module cycle terminates with an Error whose message contains
"Circular import". -/
theorem C8_circular_import_detection (fuel : Nat) (path : String) (env : Nat)
    (st : EvalState)
    (hcache : lookupStore st.modules.loaded_modules path = none)
    (hload : st.modules.is_loading path = true) :
    load_module (fuel + 1) path env st
      = some (.errV ("Circular import detected: " ++ path), st)
    ∧ (∀ (fuel2 : Nat) (p : String) (env2 : Nat) (st1 : EvalState) (r : Obj)
        (st2 : EvalState),
        load_module fuel2 p env2 st1 = some (r, st2) →
        st2.modules.loading_stack = st1.modules.loading_stack)
    ∧ eval_source cycFs 60 "load(\"a\")"
      = some (.errV "Circular import detected: a") := by
  refine ⟨?_, ?_, rfl⟩
  · simp only [load_module, hcache, hload]
    rfl
  · intro fuel2 p env2 st1 r st2 h
    exact (eval_preserves_loading_stack fuel2).2.2.2.2.2.2.2.2.1 p env2 st1 r st2 h

/-- Witness for C8: a state whose loading stack already holds `"a"`, and a
concrete completed (failing) load restoring the empty stack. -/
theorem C8_circular_import_detection_witness :
    lookupStore (EvalState.mk [⟨[], none⟩] ⟨[], ["a"]⟩ []).modules.loaded_modules "a" = none
    ∧ (EvalState.mk [⟨[], none⟩] ⟨[], ["a"]⟩ []).modules.is_loading "a" = true
    ∧ load_module 2 "a" 0 (EvalState.mk [⟨[], none⟩] ⟨[], ["a"]⟩ [])
      = some (.errV "Circular import detected: a",
          EvalState.mk [⟨[], none⟩] ⟨[], ["a"]⟩ [])
    ∧ load_module 1 "x" 0 (initState [])
      = some (.errV "Module not found: x", initState [])
    ∧ (initState []).modules.loading_stack = (initState []).modules.loading_stack := by
  have h := C8_circular_import_detection 1 "a" 0
    (EvalState.mk [⟨[], none⟩] ⟨[], ["a"]⟩ []) rfl rfl
  refine ⟨rfl, rfl, h.1, rfl, ?_⟩
  exact h.2.1 1 "x" 0 (initState []) (.errV "Module not found: x") (initState []) rfl

end Zen
